import Mathlib

/-!
# The build orchestrator of subo (`builder/builder.go`)

A shallow embedding of `Builder.BuildWithToolchain`, `Builder.Results`,
`Builder.Bundle`, `Builder.dockerBuildForLang`, `Builder.doNativeBuildForRunnable`,
`Builder.checkAndRunPreReqs` and `Builder.analyzeForCompilerFlags`.

The Go code is imperative and talks to the file system, to external processes
and to a logger.  Here every such call is a field of `Env`, a function of an
explicit world `W`, and every call is written to a chronological `trace` of
`Event`s, so that "this collaborator was (not) invoked" is a statement about
the trace.  Go's `error` is the type `Err` (`none : Option Err` is `nil`).
-/

namespace builder

/-! ## Go errors -/

/-- Go error values as the builder sees them: the sentinel `os.ErrNotExist`,
an error made by `errors.New` or `fmt.Errorf` or handed back by a collaborator,
and `errors.Wrap(cause, msg)`. -/
inductive Err where
  | ErrNotExist : Err
  | New (msg : String) : Err
  | Wrap (cause : Err) (msg : String) : Err
deriving DecidableEq, Repr

deriving instance DecidableEq for Except

/-- The method `Error()`: `errors.Wrap` prints its message, a colon and the cause. -/
def Err.Error : Err → String
  | .ErrNotExist => "file does not exist"
  | .New msg => msg
  | .Wrap cause msg => msg ++ ": " ++ cause.Error

/-- The test `errors.Is(err, os.ErrNotExist)`: follows the chain of wrapped causes. -/
def Err.IsNotExist : Err → Bool
  | .ErrNotExist => true
  | .New _ => false
  | .Wrap cause _ => cause.IsNotExist

/-! ## Data model -/

/-- The type `BuildResult` (builder.go, lines 32-35). -/
structure BuildResult where
  Succeeded : Bool
  OutputLog : String
deriving DecidableEq, Repr

/-- The type `Toolchain` is a Go string type. -/
abbrev Toolchain := String

/-- The constant `ToolchainNative`. -/
def ToolchainNative : Toolchain := "native"

/-- The constant `ToolchainDocker`. -/
def ToolchainDocker : Toolchain := "docker"

/-- The fields of `directive.Runnable` that the builder reads. -/
structure Runnable where
  Name : String
  Lang : String
deriving DecidableEq, Repr

/-- The fields of `context.RunnableDir` that the builder reads or writes. -/
structure RunnableDir where
  Name : String
  UnderscoreName : String
  Fullpath : String
  Runnable : Runnable
  CompilerFlags : String
deriving DecidableEq, Repr

/-- The fields of `directive.Directive` that the builder reads or writes.
`Runnables` are the function entries. -/
structure Directive where
  Identifier : String
  AppVersion : String
  AtmoVersion : String
  Headless : Bool
  Runnables : List Runnable
deriving DecidableEq, Repr

/-- One entry of `context.PreRequisiteCommands`: a required file and the command
that creates it. -/
structure Prereq where
  File : String
  Command : String
deriving DecidableEq, Repr

/-- The fields of `context.BuildContext` that the builder reads or writes.
`Langs` is the language allow-list, `BundleFullpath` is `Bundle.Fullpath`,
and `Directive = none` is the nil pointer. -/
structure BuildContext where
  Cwd : String
  Runnables : List RunnableDir
  Directive : Option Directive
  Langs : List String
  BuilderTag : String
  MountPath : String
  RelDockerPath : String
  BundleFullpath : String
deriving DecidableEq, Repr

/-- The type `Builder` (builder.go, lines 23-29).  The logger is a collaborator:
its calls are events of the trace. -/
structure Builder where
  Context : BuildContext
  results : List BuildResult
deriving DecidableEq, Repr

/-! ## Effects -/

/-- Every call the builder makes to a collaborator. -/
inductive Event where
  | LogStart (msg : String)
  | LogDone (msg : String)
  | LogInfo (msg : String)
  | Stat (path : String)
  | ReadFile (path : String)
  | RunInDir (cmd : String) (dir : String)
  | Run (cmd : String)
  | WriteDirectiveFile (cwd : String) (d : Directive)
  | AugmentAndValidateDirectiveFns
  | Validate
  | CollectStaticFiles (cwd : String)
  | Marshal
  | Modules
  | BundleWrite (directiveBytes : String) (modules : List String)
      (static : Option (List String)) (path : String)
deriving DecidableEq, Repr

/-- The world the builder runs in and the calls made so far, oldest first. -/
structure Sys (W : Type) where
  world : W
  trace : List Event
deriving DecidableEq

/-- Record one call. -/
def Sys.emit {W : Type} (s : Sys W) (e : Event) : Sys W :=
  { s with trace := s.trace ++ [e] }

/-- The collaborators of the builder: code of other packages and of the Go
standard library, each taken as a parameter.  Those that touch the file system
or run a process read the world `W`; those that may change it return the new
world. -/
structure Env (W : Type) where
  /-- The constant `runtime.GOOS`. -/
  GOOS : String
  /-- The table `context.PreRequisiteCommands`, a map of maps. -/
  PreRequisiteCommands : String → Option (String → Option (List Prereq))
  /-- The function `context.NativeBuildCommands`. -/
  NativeBuildCommands : String → Except Err (List String)
  /-- The function `context.ImageForLang`. -/
  ImageForLang : String → String → String
  /-- The method `BuildContext.ShouldBuildLang`, as a function of the allow-list. -/
  ShouldBuildLang : List String → String → Bool
  /-- The constant `release.AtmoVersion`. -/
  AtmoVersion : String
  /-- The function `filepath.Join` on two elements. -/
  Join : String → String → String
  /-- The function `strings.TrimSpace`. -/
  TrimSpace : String → String
  /-- The verb `%q` of package fmt. -/
  Quote : String → String
  /-- Whether `template.New("cmd").Parse` accepts the text. -/
  TemplateParse : String → Option Err
  /-- The method `Execute` of the parsed template on a runnable. -/
  TemplateExecute : String → RunnableDir → Except Err String
  /-- The function `os.Stat`, its error only. -/
  Stat : W → String → Option Err
  /-- The function `ioutil.ReadFile`. -/
  ReadFile : W → String → Except Err String
  /-- The function `util.RunInDir`: output, error, and the world afterwards. -/
  RunInDir : W → String → String → (String × Option Err) × W
  /-- The function `util.Run`: output, error, and the world afterwards. -/
  Run : W → String → (String × Option Err) × W
  /-- The order in which `range` visits the keys of a map, given in order of
  first insertion. -/
  MapRange : List String → List String
  /-- The function `context.ForDirectory`. -/
  ContextForDirectory : W → String → Except Err BuildContext
  /-- The function `context.WriteDirectiveFile`. -/
  WriteDirectiveFile : W → String → Directive → Option Err × W
  /-- The function `context.AugmentAndValidateDirectiveFns`: the function
  entries it stores in the directive. -/
  AugmentAndValidateDirectiveFns : Directive → List RunnableDir → Except Err (List Runnable)
  /-- The method `Directive.Validate`. -/
  Validate : Directive → Option Err
  /-- The function `context.CollectStaticFiles`; `none` is the nil map. -/
  CollectStaticFiles : W → String → Except Err (Option (List String))
  /-- The method `Directive.Marshal`. -/
  Marshal : Directive → Except Err String
  /-- The method `BuildContext.Modules`. -/
  Modules : W → BuildContext → Except Err (List String)
  /-- The function `bundle.Write`. -/
  BundleWrite : W → String → List String → Option (List String) → String → Option Err × W

/-! ## Library functions modelled in full -/

/-- The function `strings.Contains`. -/
def stringsContains (s substr : String) : Bool :=
  decide (substr.data <:+: s.data)

/-- The function `strings.TrimPrefix`. -/
def stringsTrimPrefix (s pre : String) : String :=
  if pre.data <+: s.data then String.mk (s.data.drop pre.data.length) else s

/-- Go's `int` on a 64-bit platform: the value an arithmetic result wraps to. -/
def wrapInt64 (x : Int) : Int :=
  (x + 2 ^ 63) % 2 ^ 64 - 2 ^ 63

/-- The value of a string of decimal digits. -/
def digitsValue (ds : List Char) : Nat :=
  ds.foldl (fun n c => 10 * n + (c.toNat - 48)) 0

/-- The function `strconv.Atoi` on a 64-bit platform, as (value, ok): one optional
sign, then decimal digits only; a syntax error gives 0, a value out of range
gives the nearest bound, each with an error. -/
def strconvAtoi (s : String) : Int × Bool :=
  let neg : Bool := s.data.head? = some '-'
  let ds : List Char :=
    if s.data.head? = some '-' ∨ s.data.head? = some '+' then s.data.tail else s.data
  if ds = [] ∨ ¬ ds.all Char.isDigit = true then (0, false)
  else
    let un := digitsValue ds
    if ¬ neg = true ∧ 2 ^ 63 ≤ un then (2 ^ 63 - 1, false)
    else if neg = true ∧ 2 ^ 63 < un then (-(2 ^ 63), false)
    else (if neg then -(un : Int) else (un : Int), true)

/-- The function `parseInt` of golang.org/x/mod/semver: the leading run of
digits, without a leading zero unless it is "0", and the rest. -/
def semverParseInt (v : List Char) : Option (List Char × List Char) :=
  match v with
  | [] => none
  | c :: cs =>
    if ¬ c.isDigit = true then none
    else
      let t := c :: cs.takeWhile Char.isDigit
      if c = '0' ∧ t.length ≠ 1 then none
      else some (t, cs.dropWhile Char.isDigit)

/-- The function `isIdentChar` of golang.org/x/mod/semver. -/
def semverIsIdentChar (c : Char) : Bool :=
  ('A' ≤ c ∧ c ≤ 'Z') ∨ ('a' ≤ c ∧ c ≤ 'z') ∨ ('0' ≤ c ∧ c ≤ '9') ∨ c = '-'

/-- The function `isBadNum` of golang.org/x/mod/semver: all digits, more than
one, and a leading zero. -/
def semverIsBadNum (v : List Char) : Bool :=
  v.all Char.isDigit ∧ 1 < v.length ∧ v.head? = some '0'

/-- The loop of `parsePrerelease` after the hyphen: `cur` is the identifier read
so far; the result is the text from the first plus sign on. -/
def semverPrereleaseLoop : List Char → List Char → Option (List Char)
  | [], cur => if cur = [] ∨ semverIsBadNum cur = true then none else some []
  | c :: cs, cur =>
    if c = '+' then
      if cur = [] ∨ semverIsBadNum cur = true then none else some (c :: cs)
    else if ¬ semverIsIdentChar c = true ∧ c ≠ '.' then none
    else if c = '.' then
      if cur = [] ∨ semverIsBadNum cur = true then none else semverPrereleaseLoop cs []
    else semverPrereleaseLoop cs (cur ++ [c])

/-- The loop of `parseBuild` after the plus sign: whether the rest is a
dot-separated series of non-empty identifiers. -/
def semverBuildLoop : List Char → List Char → Bool
  | [], cur => cur ≠ []
  | c :: cs, cur =>
    if ¬ semverIsIdentChar c = true ∧ c ≠ '.' then false
    else if c = '.' then
      if cur = [] then false else semverBuildLoop cs []
    else semverBuildLoop cs (cur ++ [c])

/-- What follows the patch number in `parse`: an optional pre-release, an
optional build, and nothing else. -/
def semverParseTail (v : List Char) : Bool :=
  let afterPre : Option (List Char) :=
    match v with
    | '-' :: cs => semverPrereleaseLoop cs []
    | _ => some v
  match afterPre with
  | none => false
  | some [] => true
  | some ('+' :: cs) => semverBuildLoop cs []
  | some (_ :: _) => false

/-- The function `parse` of golang.org/x/mod/semver, its major component only:
`none` when the version is not valid. -/
def semverParseMajor (v : List Char) : Option (List Char) :=
  match v with
  | 'v' :: v1 =>
    match semverParseInt v1 with
    | none => none
    | some (major, []) => some major
    | some (major, '.' :: v2) =>
      match semverParseInt v2 with
      | none => none
      | some (_, []) => some major
      | some (_, '.' :: v3) =>
        match semverParseInt v3 with
        | none => none
        | some (_, v4) => if semverParseTail v4 then some major else none
      | some (_, _ :: _) => none
    | some (_, _ :: _) => none
  | _ => none

/-- The function `semver.Major`: the major version prefix, `v` included, or the
empty string for an invalid version. -/
def semverMajor (v : String) : String :=
  match semverParseMajor v.data with
  | none => ""
  | some major => String.mk ('v' :: major)

/-! ## The builder -/

variable {W : Type}

/-- The function `ForDirectory` (lines 45-58): a builder with an empty result list. -/
def ForDirectory (env : Env W) (dir : String) (s : Sys W) : Except Err Builder :=
  match env.ContextForDirectory s.world dir with
  | .error err => .error (Err.Wrap err "failed to context.FirDirectory")
  | .ok ctx => .ok { Context := ctx, results := [] }

/-- The loop of `checkAndRunPreReqs` (lines 261-279) over the rules left. -/
def Builder.preReqLoop (env : Env W) (runnable : RunnableDir) :
    List Prereq → BuildResult → Sys W → Option Err × BuildResult × Sys W
  | [], result, s => (none, result, s)
  | p :: ps, result, s =>
    let path := env.Join runnable.Fullpath p.File
    let s1 := s.emit (Event.Stat path)
    match env.Stat s.world path with
    | none => Builder.preReqLoop env runnable ps result s1
    | some err =>
      if err.IsNotExist = true then
        let s2 := s1.emit (Event.LogStart ("missing " ++ p.File ++ ", fixing..."))
        let out := env.RunInDir s2.world p.Command runnable.Fullpath
        let s3 : Sys W :=
          { world := out.2, trace := s2.trace ++ [Event.RunInDir p.Command runnable.Fullpath] }
        let result1 : BuildResult :=
          { result with OutputLog := result.OutputLog ++ (out.1.1 ++ "\n") }
        match out.1.2 with
        | some err1 =>
          (some (Err.Wrap err1 ("failed to Run prerequisite: " ++ p.Command)), result1, s3)
        | none => Builder.preReqLoop env runnable ps result1 (s3.emit (Event.LogDone "fixed!"))
      else Builder.preReqLoop env runnable ps result s1

/-- The method `checkAndRunPreReqs` (lines 250-282): the error, the result the
pointer refers to afterwards, and the system afterwards. -/
def Builder.checkAndRunPreReqs (env : Env W) (runnable : RunnableDir)
    (result : BuildResult) (s : Sys W) : Option Err × BuildResult × Sys W :=
  match env.PreRequisiteCommands env.GOOS with
  | none => (some (Err.New ("unsupported OS: " ++ env.GOOS)), result, s)
  | some preReqLangs =>
    match preReqLangs runnable.Runnable.Lang with
    | none => (some (Err.New ("unsupported language: " ++ runnable.Runnable.Lang)), result, s)
    | some preReqs => Builder.preReqLoop env runnable preReqs result s

/-- The method `analyzeForCompilerFlags` (lines 286-299). -/
def Builder.analyzeForCompilerFlags (env : Env W) (runnable : RunnableDir) (s : Sys W) :
    (String × Option Err) × Sys W :=
  if runnable.Runnable.Lang = "assemblyscript" then
    let path := env.Join runnable.Fullpath "package.json"
    let s1 := s.emit (Event.ReadFile path)
    match env.ReadFile s.world path with
    | .error err => (("", some (Err.Wrap err "failed to ReadFile package.json")), s1)
    | .ok packageJSONBytes =>
      if stringsContains packageJSONBytes "json-as" = true then
        (("--transform ./node_modules/json-as/transform", none), s1)
      else (("", none), s1)
  else (("", none), s)

/-- The loop of `doNativeBuildForRunnable` (lines 221-245) over the command
templates left. -/
def Builder.nativeLoop (env : Env W) (r : RunnableDir) :
    List String → BuildResult → Sys W → Option Err × BuildResult × Sys W
  | [], result, s => (none, result, s)
  | cmd :: cmds, result, s =>
    match env.TemplateParse cmd with
    | some err => (some (Err.Wrap err "failed to Parse command template"), result, s)
    | none =>
      match env.TemplateExecute cmd r with
      | .error err => (some (Err.Wrap err "failed to Execute command template"), result, s)
      | .ok fullCmd =>
        let cmdString := env.TrimSpace fullCmd
        let out := env.RunInDir s.world cmdString r.Fullpath
        let s1 : Sys W :=
          { world := out.2, trace := s.trace ++ [Event.RunInDir cmdString r.Fullpath] }
        let result1 : BuildResult :=
          { result with OutputLog := result.OutputLog ++ (out.1.1 ++ "\n") }
        match out.1.2 with
        | some err => (some (Err.Wrap err "failed to RunInDir"), { result1 with Succeeded := false }, s1)
        | none => Builder.nativeLoop env r cmds { result1 with Succeeded := true } s1

/-- The method `doNativeBuildForRunnable` (lines 215-248). -/
def Builder.doNativeBuildForRunnable (env : Env W) (r : RunnableDir)
    (result : BuildResult) (s : Sys W) : Option Err × BuildResult × Sys W :=
  match env.NativeBuildCommands r.Runnable.Lang with
  | .error err => (some (Err.Wrap err "failed to NativeBuildCommands"), result, s)
  | .ok cmds => Builder.nativeLoop env r cmds result s

/-- The command line of `dockerBuildForLang` (line 200). -/
def dockerCommand (ctx : BuildContext) (img lang : String) : String :=
  "docker run --rm --mount type=bind,source=" ++ ctx.MountPath ++
    ",target=/root/runnable " ++ img ++ " subo build " ++ ctx.RelDockerPath ++
    " --native --langs " ++ lang

/-- The method `dockerBuildForLang` (lines 192-212): a result or an error, never both. -/
def Builder.dockerBuildForLang (env : Env W) (b : Builder) (lang : String) (s : Sys W) :
    Except Err BuildResult × Sys W :=
  let img := env.ImageForLang lang b.Context.BuilderTag
  if img = "" then
    (.error (Err.New (env.Quote lang ++ " is not a supported language")), s)
  else
    let out := env.Run s.world (dockerCommand b.Context img lang)
    let s1 : Sys W :=
      { world := out.2, trace := s.trace ++ [Event.Run (dockerCommand b.Context img lang)] }
    let result : BuildResult := { Succeeded := false, OutputLog := out.1.1 }
    match out.1.2 with
    | some err => (.error (Err.Wrap err "failed to Run docker command"), s1)
    | none => (.ok { result with Succeeded := true }, s1)

/-- What lines 74-100 do for one allow-listed runnable in native mode: the error
returned (if any), whether a result was appended, and the system afterwards. -/
def Builder.nativeBody (env : Env W) (r : RunnableDir) (s : Sys W) :
    Option Err × Option BuildResult × Sys W :=
  let s1 := s.emit
    (Event.LogStart ("building runnable: " ++ r.Name ++ " (" ++ r.Runnable.Lang ++ ")"))
  let result : BuildResult := { Succeeded := false, OutputLog := "" }
  match Builder.checkAndRunPreReqs env r result s1 with
  | (some err, _, s2) => (some (Err.Wrap err "🚫 failed to checkAndRunPreReqs"), none, s2)
  | (none, result1, s2) =>
    match Builder.analyzeForCompilerFlags env r s2 with
    | ((_, some err), s3) =>
      (some (Err.Wrap err "🚫 failed to analyzeForCompilerFlags"), none, s3)
    | ((flags, none), s3) =>
      let r1 : RunnableDir := if flags ≠ "" then { r with CompilerFlags := flags } else r
      match Builder.doNativeBuildForRunnable env r1 result1 s3 with
      | (some err, result2, s4) =>
        (some (Err.Wrap err ("🚫 failed to build " ++ r.Name)), some result2, s4)
      | (none, result2, s4) =>
        let fullWasmFilepath := env.Join r.Fullpath (r.Name ++ ".wasm")
        (none, some result2,
          s4.emit (Event.LogDone (r.Name ++ " was built -> " ++ fullWasmFilepath)))

/-- The assignment `dockerLangs[lang] = true`: the keys in order of first insertion. -/
def mapSet (keys : List String) (lang : String) : List String :=
  if lang ∈ keys then keys else keys ++ [lang]

/-- The first loop of `BuildWithToolchain` (lines 69-105) over the runnables
left: the error returned from inside the loop (if any), `b.results`, the keys of
`dockerLangs`, and the system afterwards. -/
def Builder.runnablesLoop (env : Env W) (tcn : Toolchain) (langs : List String) :
    List RunnableDir → List BuildResult → List String → Sys W →
      Option Err × List BuildResult × List String × Sys W
  | [], results, dockerLangs, s => (none, results, dockerLangs, s)
  | r :: rs, results, dockerLangs, s =>
    if ¬ env.ShouldBuildLang langs r.Runnable.Lang = true then
      Builder.runnablesLoop env tcn langs rs results dockerLangs s
    else if tcn = ToolchainNative then
      match Builder.nativeBody env r s with
      | (some err, none, s1) => (some err, results, dockerLangs, s1)
      | (some err, some result, s1) => (some err, results ++ [result], dockerLangs, s1)
      | (none, none, s1) => Builder.runnablesLoop env tcn langs rs results dockerLangs s1
      | (none, some result, s1) =>
        Builder.runnablesLoop env tcn langs rs (results ++ [result]) dockerLangs s1
    else
      Builder.runnablesLoop env tcn langs rs results (mapSet dockerLangs r.Runnable.Lang) s

/-- The second loop of `BuildWithToolchain` (lines 108-115) over the languages left. -/
def Builder.dockerLoop (env : Env W) (b : Builder) :
    List String → List BuildResult → Sys W → Option Err × List BuildResult × Sys W
  | [], results, s => (none, results, s)
  | lang :: ls, results, s =>
    match Builder.dockerBuildForLang env b lang s with
    | (.error err, s1) => (some (Err.Wrap err "failed to dockerBuildForDirectory"), results, s1)
    | (.ok result, s1) => Builder.dockerLoop env b ls (results ++ [result]) s1

/-- The method `BuildWithToolchain` (lines 60-119): the error, the builder and
the system afterwards. -/
def Builder.BuildWithToolchain (env : Env W) (tcn : Toolchain) (b : Builder) (s : Sys W) :
    Option Err × Builder × Sys W :=
  match Builder.runnablesLoop env tcn b.Context.Langs b.Context.Runnables [] [] s with
  | (some err, results, _, s1) => (some err, { b with results := results }, s1)
  | (none, results, dockerLangs, s1) =>
    if tcn = ToolchainDocker then
      match Builder.dockerLoop env b (env.MapRange dockerLangs) results s1 with
      | (err, results1, s2) => (err, { b with results := results1 }, s2)
    else (none, { b with results := results }, s1)

/-- The method `Results` (lines 123-129): the nil slice is the empty list. -/
def Builder.Results (b : Builder) : List BuildResult × Option Err :=
  if b.results.length = 0 then ([], some Err.ErrNotExist) else (b.results, none)

/-- Lines 158-189 of `Bundle`: from `AugmentAndValidateDirectiveFns` on, with the
directive `d` the context points to. -/
def Builder.bundleRest (env : Env W) (b : Builder) (d : Directive) (s : Sys W) :
    Option Err × Builder × Sys W :=
  let s1 := s.emit Event.AugmentAndValidateDirectiveFns
  match env.AugmentAndValidateDirectiveFns d b.Context.Runnables with
  | .error err => (some (Err.Wrap err "🚫 failed to AugmentAndValidateDirectiveFns"), b, s1)
  | .ok fns =>
    let d1 : Directive := { d with Runnables := fns }
    let b1 : Builder := { b with Context := { b.Context with Directive := some d1 } }
    let s2 := s1.emit Event.Validate
    match env.Validate d1 with
    | some err => (some (Err.Wrap err "🚫 failed to Validate Directive"), b1, s2)
    | none =>
      let s3 := s2.emit (Event.CollectStaticFiles b1.Context.Cwd)
      match env.CollectStaticFiles s3.world b1.Context.Cwd with
      | .error err => (some (Err.Wrap err "failed to CollectStaticFiles"), b1, s3)
      | .ok static =>
        let s4 := if static.isSome = true then
          s3.emit (Event.LogInfo "adding static files to bundle") else s3
        let s5 := s4.emit Event.Marshal
        match env.Marshal d1 with
        | .error err => (some (Err.Wrap err "failed to Directive.Marshal"), b1, s5)
        | .ok directiveBytes =>
          let s6 := s5.emit Event.Modules
          match env.Modules s6.world b1.Context with
          | .error err => (some (Err.Wrap err "failed to Modules for build"), b1, s6)
          | .ok modules =>
            let out := env.BundleWrite s6.world directiveBytes modules static
              b1.Context.BundleFullpath
            let s7 : Sys W :=
              { world := out.2,
                trace := s6.trace ++
                  [Event.BundleWrite directiveBytes modules static b1.Context.BundleFullpath] }
            match out.1 with
            | some err => (some (Err.Wrap err "🚫 failed to WriteBundle"), b1, s7)
            | none => (none, b1, s7)

/-- Lines 147-149 of `Bundle`: the application version a headless directive gets. -/
def bumpAppVersion (appVersion : String) : String :=
  let majorStr := stringsTrimPrefix (semverMajor appVersion) "v"
  let major := (strconvAtoi majorStr).1
  "v" ++ toString (wrapInt64 (major + 1)) ++ ".0.0"

/-- The method `Bundle` (lines 131-190). -/
def Builder.Bundle (env : Env W) (b : Builder) (s : Sys W) : Option Err × Builder × Sys W :=
  if b.results.length = 0 then
    (some (Err.New "must build before calling Bundle"), b, s)
  else
    match b.Context.Directive with
    | none =>
      let d : Directive :=
        { Identifier := "com.suborbital.app", AppVersion := "v0.0.1",
          AtmoVersion := "v" ++ env.AtmoVersion, Headless := false, Runnables := [] }
      Builder.bundleRest env { b with Context := { b.Context with Directive := some d } } d s
    | some d =>
      if d.Headless = true then
        let s1 := s.emit (Event.LogInfo "updating Directive")
        let new := bumpAppVersion d.AppVersion
        let d1 : Directive := { d with AppVersion := new }
        let b1 : Builder := { b with Context := { b.Context with Directive := some d1 } }
        let out := env.WriteDirectiveFile s1.world b1.Context.Cwd d1
        let s2 : Sys W :=
          { world := out.2,
            trace := s1.trace ++ [Event.WriteDirectiveFile b1.Context.Cwd d1] }
        match out.1 with
        | some err => (some (Err.Wrap err "failed to WriteDirectiveFile"), b1, s2)
        | none => Builder.bundleRest env b1 d1 s2
      else Builder.bundleRest env b d s

/-! ## A concrete environment for the examples -/

/-- Whitespace trimmed at both ends, on lists of characters. -/
def trimChars (cs : List Char) : List Char :=
  ((cs.dropWhile Char.isWhitespace).reverse.dropWhile Char.isWhitespace).reverse

/-- A small world: the files that exist, each with its text.  A directory that
holds a file BROKEN fails every build command run in it; a file docker-down at
the root makes every docker command fail, a file npm-offline every `npm install`. -/
abbrev DemoWorld := List (String × String)

/-- The rules of the examples for one OS: assemblyscript needs `node_modules`. -/
def demoPreReqs (lang : String) : Option (List Prereq) :=
  if lang = "assemblyscript" then some [{ File := "node_modules", Command := "npm install" }]
  else if lang = "rust" ∨ lang = "swift" ∨ lang = "tinygo" ∨ lang = "grain" then some []
  else none

/-- Collaborators over `DemoWorld` that behave like the real ones on the inputs of
the examples: templates without actions render to themselves, the text of an
unclosed action does not parse, `npm install` creates `node_modules`. -/
def demoEnv : Env DemoWorld where
  GOOS := "linux"
  PreRequisiteCommands := fun os => if os = "linux" then some demoPreReqs else none
  NativeBuildCommands := fun lang =>
    if lang = "rust" then .ok ["cargo build ", "cp target/out.wasm ."]
    else if lang = "assemblyscript" then .ok ["npm run asbuild"]
    else if lang = "swift" then .ok ["swift build", "\x7b\x7b"]
    else if lang = "tinygo" then .ok ["tinygo build"]
    else if lang = "grain" then .ok []
    else .error (Err.New ("unsupported language " ++ lang ++ " for build command"))
  ImageForLang := fun lang tag =>
    if lang = "rust" ∨ lang = "swift" ∨ lang = "assemblyscript" ∨ lang = "tinygo" then
      "suborbital/builder-" ++ lang ++ ":" ++ tag
    else ""
  ShouldBuildLang := fun langs lang => langs.isEmpty || langs.contains lang
  AtmoVersion := "0.4.2"
  Join := fun a b => a ++ "/" ++ b
  TrimSpace := fun t => String.mk (trimChars t.data)
  Quote := fun t => "\"" ++ t ++ "\""
  TemplateParse := fun t =>
    if t = "\x7b\x7b" then some (Err.New "template: cmd:1: unclosed action") else none
  TemplateExecute := fun t _ => .ok t
  Stat := fun w path =>
    if path ∈ w.map Prod.fst then none
    else some (Err.Wrap Err.ErrNotExist ("stat " ++ path))
  ReadFile := fun w path =>
    match w.lookup path with
    | some text => .ok text
    | none => .error (Err.Wrap Err.ErrNotExist ("open " ++ path))
  RunInDir := fun w cmd dir =>
    if cmd = "npm install" then
      if "/npm-offline" ∈ w.map Prod.fst then
        (("npm ERR! network", some (Err.New "exit status 1")), w)
      else (("added 1 package", none), w ++ [(dir ++ "/node_modules", "")])
    else if (dir ++ "/BROKEN") ∈ w.map Prod.fst then
      (("error: could not compile", some (Err.New "exit status 1")), w)
    else (("ok", none), w)
  Run := fun w _ =>
    if "/docker-down" ∈ w.map Prod.fst then
      (("Cannot connect to the Docker daemon", some (Err.New "exit status 125")), w)
    else (("built", none), w)
  MapRange := fun keys => keys.reverse
  ContextForDirectory := fun _ dir =>
    .ok { Cwd := dir, Runnables := [], Directive := none, Langs := [], BuilderTag := "v0.4.2",
          MountPath := dir, RelDockerPath := ".", BundleFullpath := dir ++ "/runnables.wasm.zip" }
  WriteDirectiveFile := fun w cwd d => (none, w ++ [(cwd ++ "/Directive.yaml", d.AppVersion)])
  AugmentAndValidateDirectiveFns := fun _ rs => .ok (rs.map (fun r => r.Runnable))
  Validate := fun d =>
    if d.Identifier = "" then some (Err.New "identifier is missing") else none
  CollectStaticFiles := fun _ _ => .ok none
  Marshal := fun d => .ok (d.Identifier ++ "@" ++ d.AppVersion)
  Modules := fun _ ctx => .ok (ctx.Runnables.map (fun r => r.Fullpath ++ "/" ++ r.Name ++ ".wasm"))
  BundleWrite := fun w directiveBytes _ _ path => (none, w ++ [(path, directiveBytes)])

/-- A runnable of the examples: its name, its language, its directory. -/
def demoRunnable (name lang : String) : RunnableDir :=
  { Name := name, UnderscoreName := name, Fullpath := "/app/" ++ name,
    Runnable := { Name := name, Lang := lang }, CompilerFlags := "" }

/-- The world in which the directory of runnable b is broken. -/
def demoBroken : DemoWorld := [("/app/b/BROKEN", "")]

/-- A directive of the examples: its identifier, its version, whether it is headless. -/
def demoDirective (identifier appVersion : String) (headless : Bool) : Directive :=
  { Identifier := identifier, AppVersion := appVersion, AtmoVersion := "v0.4.2",
    Headless := headless, Runnables := [] }

/-- A build context of the examples over the given runnables, allow-list and directive. -/
def demoContext (rs : List RunnableDir) (langs : List String) (d : Option Directive) :
    BuildContext :=
  { Cwd := "/app", Runnables := rs, Directive := d, Langs := langs, BuilderTag := "v0.4.2",
    MountPath := "/app", RelDockerPath := ".", BundleFullpath := "/app/runnables.wasm.zip" }

/-! ## Definitions used to state the properties -/

/-- The existence check of a rule's required file reports "does not exist":
`os.Stat` fails and `errors.Is(err, os.ErrNotExist)` holds. -/
def reportsNotExist (env : Env W) (w : W) (runnable : RunnableDir) (p : Prereq) : Bool :=
  match env.Stat w (env.Join runnable.Fullpath p.File) with
  | some err => err.IsNotExist
  | none => false

/-- One rule the resolver reached: the rule, the world it was reached in, whether
its check reported "does not exist", and the output and the error of its fix
command (empty and none when no command was run). -/
structure Checked (W : Type) where
  rule : Prereq
  before : W
  missing : Bool
  output : String
  failure : Option Err

/-- The world a reached rule leaves: the one its fix command left if it ran. -/
def Checked.after (env : Env W) (runnable : RunnableDir) (c : Checked W) : W :=
  if c.missing = true then (env.RunInDir c.before c.rule.Command runnable.Fullpath).2
  else c.before

/-- The resolver as the specification words it: take the rules in order; check
the rule's file; run the fix command in the runnable's directory exactly when the
check reports "does not exist"; stop after a fix command that fails.  The rules
reached, and the world afterwards. -/
def prereqRun (env : Env W) (runnable : RunnableDir) : List Prereq → W → List (Checked W) × W
  | [], w => ([], w)
  | p :: ps, w =>
    if reportsNotExist env w runnable p = true then
      match (env.RunInDir w p.Command runnable.Fullpath).1.2 with
      | some err =>
        ([{ rule := p, before := w, missing := true,
            output := (env.RunInDir w p.Command runnable.Fullpath).1.1, failure := some err }],
          (env.RunInDir w p.Command runnable.Fullpath).2)
      | none =>
        ({ rule := p, before := w, missing := true,
           output := (env.RunInDir w p.Command runnable.Fullpath).1.1, failure := none } ::
            (prereqRun env runnable ps (env.RunInDir w p.Command runnable.Fullpath).2).1,
          (prereqRun env runnable ps (env.RunInDir w p.Command runnable.Fullpath).2).2)
    else
      ({ rule := p, before := w, missing := false, output := "", failure := none } ::
          (prereqRun env runnable ps w).1,
        (prereqRun env runnable ps w).2)

/-- The calls made for the rules reached: the check of each, and for a missing
file the notice, the fix command in the runnable's directory, and the notice of
success when it did not fail. -/
def checkedEvents (env : Env W) (runnable : RunnableDir) : List (Checked W) → List Event
  | [] => []
  | c :: cs =>
    (Event.Stat (env.Join runnable.Fullpath c.rule.File) ::
      (if c.missing = true then
        Event.LogStart ("missing " ++ c.rule.File ++ ", fixing...") ::
          Event.RunInDir c.rule.Command runnable.Fullpath ::
          (if c.failure = none then [Event.LogDone "fixed!"] else [])
      else [])) ++ checkedEvents env runnable cs

/-- The text the fix commands add to the log: each output followed by a newline. -/
def checkedLog : List (Checked W) → String
  | [] => ""
  | c :: cs => (if c.missing = true then c.output ++ "\n" else "") ++ checkedLog cs

/-- The error of the resolver: that of the fix command that failed, wrapped. -/
def checkedError : List (Checked W) → Option Err
  | [] => none
  | c :: cs =>
    match c.failure with
    | some err => some (Err.Wrap err ("failed to Run prerequisite: " ++ c.rule.Command))
    | none => checkedError cs

/-- The commands of a trace: command and directory of every `RunInDir`. -/
def commandsOf : List Event → List (String × String)
  | [] => []
  | Event.RunInDir cmd dir :: es => (cmd, dir) :: commandsOf es
  | _ :: es => commandsOf es

/-- Lines 222-232: a template parsed, executed against the runnable and trimmed. -/
def renderCommand (env : Env W) (r : RunnableDir) (cmd : String) : Except Err String :=
  match env.TemplateParse cmd with
  | some err => .error (Err.Wrap err "failed to Parse command template")
  | none =>
    match env.TemplateExecute cmd r with
    | .error err => .error (Err.Wrap err "failed to Execute command template")
    | .ok fullCmd => .ok (env.TrimSpace fullCmd)

/-- One command that was run: its text, its output, and its error if it failed. -/
structure Executed where
  cmd : String
  output : String
  failure : Option Err
deriving DecidableEq, Repr

/-- The executor as the specification words it: render and run the templates in
order in the runnable's directory and stop after the first command that fails;
a template that does not render ends the run before any command for it.  The
commands run, the rendering error that ended the run (if any), and the world
afterwards. -/
def nativeRun (env : Env W) (r : RunnableDir) : List String → W → List Executed × Option Err × W
  | [], w => ([], none, w)
  | c :: cs, w =>
    match renderCommand env r c with
    | .error err => ([], some err, w)
    | .ok cmd =>
      match (env.RunInDir w cmd r.Fullpath).1.2 with
      | some err => ([⟨cmd, (env.RunInDir w cmd r.Fullpath).1.1, some err⟩], none,
          (env.RunInDir w cmd r.Fullpath).2)
      | none =>
        (⟨cmd, (env.RunInDir w cmd r.Fullpath).1.1, none⟩ ::
            (nativeRun env r cs (env.RunInDir w cmd r.Fullpath).2).1,
          (nativeRun env r cs (env.RunInDir w cmd r.Fullpath).2).2.1,
          (nativeRun env r cs (env.RunInDir w cmd r.Fullpath).2).2.2)

/-- The text the commands add to the log: each output followed by a newline. -/
def logOf : List Executed → String
  | [] => ""
  | e :: es => (e.output ++ "\n") ++ logOf es

/-- The flag after the commands: the outcome of the last one, or the old flag. -/
def flagAfter (old : Bool) (es : List Executed) : Bool :=
  match es.getLast? with
  | none => old
  | some e => decide (e.failure = none)

/-- The languages of the allow-listed runnables, in the order of the runnables. -/
def allowedLangs (env : Env W) (ctx : BuildContext) : List String :=
  List.map (fun r => r.Runnable.Lang)
    (ctx.Runnables.filter (fun r => env.ShouldBuildLang ctx.Langs r.Runnable.Lang))

/-- The builder over another list of runnables, all else equal. -/
def withRunnables (b : Builder) (rs : List RunnableDir) : Builder :=
  { b with Context := { b.Context with Runnables := rs } }

/-- Augmenting the function entries of `d`, or validating the augmented
directive, fails. -/
def validationFails (env : Env W) (rs : List RunnableDir) (d : Directive) : Bool :=
  match env.AugmentAndValidateDirectiveFns d rs with
  | .error _ => true
  | .ok fns => (env.Validate { d with Runnables := fns }).isSome

/-- The directive that `Bundle` augments and validates: the default one when the
context has none, the one with the bumped version when it is headless. -/
def resolvedDirective (env : Env W) (b : Builder) : Directive :=
  match b.Context.Directive with
  | none =>
    { Identifier := "com.suborbital.app", AppVersion := "v0.0.1",
      AtmoVersion := "v" ++ env.AtmoVersion, Headless := false, Runnables := [] }
  | some d => if d.Headless = true then { d with AppVersion := bumpAppVersion d.AppVersion } else d

/-- The event is a write: of the directive file or of the bundle. -/
def Event.isWrite : Event → Bool
  | .WriteDirectiveFile _ _ => true
  | .BundleWrite _ _ _ _ => true
  | _ => false

/-! ## Results and Bundle before any build -/

/-- C8. A builder whose result list is empty (as `ForDirectory` makes it, or as a
pass that recorded nothing leaves it) cannot bundle: `Bundle` returns the error
"must build before calling Bundle" and leaves the builder (so the context and its
directive), the world and the trace of collaborator calls exactly as they were;
and `Results` returns `os.ErrNotExist`, with no results, exactly when the result
list is empty (otherwise it returns the list and no error). -/
theorem bundle_requires_build (env : Env W) (b : Builder) (s : Sys W) :
    (b.results = [] →
      Builder.Bundle env b s = (some (Err.New "must build before calling Bundle"), b, s)) ∧
    (∀ dir s0 b0, ForDirectory env dir s0 = .ok b0 → b0.results = []) ∧
    ((Builder.Results b).2 = some Err.ErrNotExist ↔ b.results = []) ∧
    (b.results = [] → Builder.Results b = ([], some Err.ErrNotExist)) ∧
    (b.results ≠ [] → Builder.Results b = (b.results, none)) := by
  refine ⟨?_, ?_, ?_, ?_, ?_⟩
  · intro h
    simp [Builder.Bundle, h]
  · intro dir s0 b0 h
    unfold ForDirectory at h
    split at h
    · cases h
    · cases h
      rfl
  · unfold Builder.Results
    by_cases h : b.results = [] <;> simp [h]
  · intro h
    simp [Builder.Results, h]
  · intro h
    simp [Builder.Results, h]

/-! ## Compiler-flag inference -/

/-- C10. `analyzeForCompilerFlags` returns the flag
"--transform ./node_modules/json-as/transform" exactly when the language is
"assemblyscript" and package.json (in the runnable's directory) is read and its
text contains "json-as"; with the marker absent it returns the empty string and
no error; for every other language it returns the empty string and no error
without any call (the system is unchanged); it returns an error exactly when the
language is "assemblyscript" and package.json cannot be read, and then the flags
are empty.  It reads at most that one file and never changes the world. -/
theorem analyzeForCompilerFlags_spec (env : Env W) (runnable : RunnableDir) (s : Sys W) :
    ((Builder.analyzeForCompilerFlags env runnable s).1.1 =
        "--transform ./node_modules/json-as/transform" ↔
      runnable.Runnable.Lang = "assemblyscript" ∧
        ∃ text, env.ReadFile s.world (env.Join runnable.Fullpath "package.json") = .ok text ∧
          "json-as".data <:+: text.data) ∧
    (∀ text, runnable.Runnable.Lang = "assemblyscript" →
      env.ReadFile s.world (env.Join runnable.Fullpath "package.json") = .ok text →
      ¬ "json-as".data <:+: text.data →
      (Builder.analyzeForCompilerFlags env runnable s).1 = ("", none)) ∧
    (runnable.Runnable.Lang ≠ "assemblyscript" →
      Builder.analyzeForCompilerFlags env runnable s = (("", none), s)) ∧
    ((Builder.analyzeForCompilerFlags env runnable s).1.2 ≠ none ↔
      runnable.Runnable.Lang = "assemblyscript" ∧
        ∃ err, env.ReadFile s.world (env.Join runnable.Fullpath "package.json") = .error err) ∧
    ((Builder.analyzeForCompilerFlags env runnable s).1.2 ≠ none →
      (Builder.analyzeForCompilerFlags env runnable s).1.1 = "") ∧
    (runnable.Runnable.Lang = "assemblyscript" →
      (Builder.analyzeForCompilerFlags env runnable s).2 =
        s.emit (Event.ReadFile (env.Join runnable.Fullpath "package.json"))) := by
  unfold Builder.analyzeForCompilerFlags
  by_cases hl : runnable.Runnable.Lang = "assemblyscript"
  · simp only [hl, if_true]
    cases hr : env.ReadFile s.world (env.Join runnable.Fullpath "package.json") with
    | error err => simp
    | ok text =>
      by_cases hc : "json-as".data <:+: text.data
      · simp [stringsContains, hc]
      · simp [stringsContains, hc]
  · simp [hl]

/-! ## Prerequisites -/

theorem preReqLoop_skip (env : Env W) (runnable : RunnableDir) (p : Prereq) (ps : List Prereq)
    (res : BuildResult) (st : Sys W) (h : reportsNotExist env st.world runnable p = false) :
    Builder.preReqLoop env runnable (p :: ps) res st =
      Builder.preReqLoop env runnable ps res
        (st.emit (Event.Stat (env.Join runnable.Fullpath p.File))) := by
  unfold reportsNotExist at h
  rw [Builder.preReqLoop]
  cases hs : env.Stat st.world (env.Join runnable.Fullpath p.File) with
  | none => simp
  | some err =>
    rw [hs] at h
    simp at h
    simp [h]

theorem preReqLoop_fix (env : Env W) (runnable : RunnableDir) (p : Prereq) (ps : List Prereq)
    (res : BuildResult) (st : Sys W) (h : reportsNotExist env st.world runnable p = true) :
    Builder.preReqLoop env runnable (p :: ps) res st =
      match (env.RunInDir st.world p.Command runnable.Fullpath).1.2 with
      | some err =>
        (some (Err.Wrap err ("failed to Run prerequisite: " ++ p.Command)),
          { res with OutputLog := res.OutputLog ++
              ((env.RunInDir st.world p.Command runnable.Fullpath).1.1 ++ "\n") },
          { world := (env.RunInDir st.world p.Command runnable.Fullpath).2,
            trace := st.trace ++ [Event.Stat (env.Join runnable.Fullpath p.File),
              Event.LogStart ("missing " ++ p.File ++ ", fixing..."),
              Event.RunInDir p.Command runnable.Fullpath] })
      | none =>
        Builder.preReqLoop env runnable ps
          { res with OutputLog := res.OutputLog ++
              ((env.RunInDir st.world p.Command runnable.Fullpath).1.1 ++ "\n") }
          { world := (env.RunInDir st.world p.Command runnable.Fullpath).2,
            trace := st.trace ++ [Event.Stat (env.Join runnable.Fullpath p.File),
              Event.LogStart ("missing " ++ p.File ++ ", fixing..."),
              Event.RunInDir p.Command runnable.Fullpath, Event.LogDone "fixed!"] } := by
  unfold reportsNotExist at h
  rw [Builder.preReqLoop]
  cases hs : env.Stat st.world (env.Join runnable.Fullpath p.File) with
  | none => rw [hs] at h; simp at h
  | some err =>
    rw [hs] at h
    simp only at h
    simp only [h, if_true, Sys.emit]
    cases hr : (env.RunInDir st.world p.Command runnable.Fullpath).1.2 with
    | none => simp [List.append_assoc]
    | some e => simp [List.append_assoc]

theorem preReqLoop_all_present (env : Env W) (runnable : RunnableDir) (rules : List Prereq) :
    ∀ (res : BuildResult) (st : Sys W),
      (∀ p ∈ rules, reportsNotExist env st.world runnable p = false) →
      Builder.preReqLoop env runnable rules res st =
        (none, res, { world := st.world,
                      trace := st.trace ++
                        List.map (fun p => Event.Stat (env.Join runnable.Fullpath p.File)) rules }) := by
  induction rules with
  | nil => intro res st _; simp [Builder.preReqLoop]
  | cons p ps ih =>
    intro res st h
    rw [preReqLoop_skip env runnable p ps res st (h p (List.mem_cons_self _ _))]
    rw [ih res _ (fun q hq => by simpa [Sys.emit] using h q (List.mem_cons_of_mem _ hq))]
    simp [Sys.emit, List.append_assoc]

theorem preReqLoop_commands (env : Env W) (runnable : RunnableDir) (rules : List Prereq) :
    ∀ (res : BuildResult) (st : Sys W),
      ∃ delta, (Builder.preReqLoop env runnable rules res st).2.2.trace = st.trace ++ delta ∧
        ∀ cmd dir, Event.RunInDir cmd dir ∈ delta →
          dir = runnable.Fullpath ∧ ∃ p ∈ rules, p.Command = cmd := by
  induction rules with
  | nil => intro res st; exact ⟨[], by simp [Builder.preReqLoop]⟩
  | cons p ps ih =>
    intro res st
    cases h : reportsNotExist env st.world runnable p with
    | false =>
      rw [preReqLoop_skip env runnable p ps res st h]
      obtain ⟨delta, hd, hc⟩ := ih res (st.emit (Event.Stat (env.Join runnable.Fullpath p.File)))
      refine ⟨Event.Stat (env.Join runnable.Fullpath p.File) :: delta, ?_, ?_⟩
      · rw [hd]; simp [Sys.emit]
      · intro cmd dir hm
        simp only [List.mem_cons] at hm
        rcases hm with hm | hm
        · cases hm
        · obtain ⟨h1, q, hq, h2⟩ := hc cmd dir hm
          exact ⟨h1, q, List.mem_cons_of_mem _ hq, h2⟩
    | true =>
      rw [preReqLoop_fix env runnable p ps res st h]
      cases hr : (env.RunInDir st.world p.Command runnable.Fullpath).1.2 with
      | some e =>
        refine ⟨[Event.Stat (env.Join runnable.Fullpath p.File),
              Event.LogStart ("missing " ++ p.File ++ ", fixing..."),
              Event.RunInDir p.Command runnable.Fullpath], rfl, ?_⟩
        intro cmd dir hm
        simp at hm
        exact ⟨hm.2, p, List.mem_cons_self _ _, hm.1.symm⟩
      | none =>
        simp only
        obtain ⟨delta, hd, hc⟩ := ih
          { res with OutputLog := res.OutputLog ++
              ((env.RunInDir st.world p.Command runnable.Fullpath).1.1 ++ "\n") }
          { world := (env.RunInDir st.world p.Command runnable.Fullpath).2,
            trace := st.trace ++ [Event.Stat (env.Join runnable.Fullpath p.File),
              Event.LogStart ("missing " ++ p.File ++ ", fixing..."),
              Event.RunInDir p.Command runnable.Fullpath, Event.LogDone "fixed!"] }
        refine ⟨[Event.Stat (env.Join runnable.Fullpath p.File),
              Event.LogStart ("missing " ++ p.File ++ ", fixing..."),
              Event.RunInDir p.Command runnable.Fullpath, Event.LogDone "fixed!"] ++ delta, ?_, ?_⟩
        · rw [hd]; simp
        · intro cmd dir hm
          simp only [List.mem_append, List.mem_cons, List.mem_singleton] at hm
          rcases hm with hm | hm
          · simp at hm
            exact ⟨hm.2, p, List.mem_cons_self _ _, hm.1.symm⟩
          · obtain ⟨h1, q, hq, h2⟩ := hc cmd dir hm
            exact ⟨h1, q, List.mem_cons_of_mem _ hq, h2⟩

theorem preReqLoop_run (env : Env W) (runnable : RunnableDir) (rules : List Prereq) :
    ∀ (res : BuildResult) (st : Sys W),
      Builder.preReqLoop env runnable rules res st =
        (checkedError (prereqRun env runnable rules st.world).1,
          { res with OutputLog :=
              res.OutputLog ++ checkedLog (prereqRun env runnable rules st.world).1 },
          { world := (prereqRun env runnable rules st.world).2,
            trace := st.trace ++
              checkedEvents env runnable (prereqRun env runnable rules st.world).1 }) := by
  induction rules with
  | nil => intro res st; simp [Builder.preReqLoop, prereqRun, checkedError, checkedLog, checkedEvents]
  | cons p ps ih =>
    intro res st
    cases h : reportsNotExist env st.world runnable p with
    | false =>
      rw [preReqLoop_skip env runnable p ps res st h, ih, prereqRun]
      simp [h, Sys.emit, checkedError, checkedLog, checkedEvents]
    | true =>
      rw [preReqLoop_fix env runnable p ps res st h, prereqRun]
      simp only [h, if_true]
      cases hr : (env.RunInDir st.world p.Command runnable.Fullpath).1.2 with
      | some err =>
        simp [checkedError, checkedLog, checkedEvents]
      | none =>
        simp only
        rw [ih]
        simp [checkedError, checkedLog, checkedEvents, String.append_assoc]

theorem prereqRun_entries (env : Env W) (runnable : RunnableDir) (rules : List Prereq) :
    ∀ w, ∀ c ∈ (prereqRun env runnable rules w).1,
      c.missing = reportsNotExist env c.before runnable c.rule ∧
      (c.missing = true →
        c.output = (env.RunInDir c.before c.rule.Command runnable.Fullpath).1.1 ∧
        c.failure = (env.RunInDir c.before c.rule.Command runnable.Fullpath).1.2) ∧
      (c.missing = false → c.output = "" ∧ c.failure = none) := by
  induction rules with
  | nil => intro w c hc; simp [prereqRun] at hc
  | cons p ps ih =>
    intro w c hc
    rw [prereqRun] at hc
    cases h : reportsNotExist env w runnable p with
    | false =>
      simp only [h, Bool.false_eq_true, if_false, List.mem_cons] at hc
      rcases hc with hc | hc
      · subst hc; simp [h]
      · exact ih w c hc
    | true =>
      simp only [h, if_true] at hc
      cases hr : (env.RunInDir w p.Command runnable.Fullpath).1.2 with
      | some err =>
        rw [hr] at hc
        simp only [List.mem_singleton] at hc
        subst hc; simp [h, hr]
      | none =>
        rw [hr] at hc
        simp only [List.mem_cons] at hc
        rcases hc with hc | hc
        · subst hc; simp [h, hr]
        · exact ih _ c hc

theorem prereqRun_worlds (env : Env W) (runnable : RunnableDir) (rules : List Prereq) :
    ∀ w, (∀ c ∈ (prereqRun env runnable rules w).1.head?, c.before = w) ∧
      List.Chain' (fun c d => d.before = c.after env runnable) (prereqRun env runnable rules w).1 ∧
      (prereqRun env runnable rules w).2 =
        (match (prereqRun env runnable rules w).1.getLast? with
          | none => w
          | some c => c.after env runnable) := by
  induction rules with
  | nil => intro w; simp [prereqRun]
  | cons p ps ih =>
    intro w
    rw [prereqRun]
    cases h : reportsNotExist env w runnable p with
    | false =>
      simp only [Bool.false_eq_true, if_false]
      obtain ⟨h1, h2, h3⟩ := ih w
      refine ⟨by simp, ?_, ?_⟩
      · rw [List.chain'_cons']
        refine ⟨?_, h2⟩
        intro d hd
        rw [h1 d hd]
        simp [Checked.after]
      · rw [h3]
        cases hl : (prereqRun env runnable ps w).1 with
        | nil => simp [Checked.after]
        | cons x xs =>
          rw [List.getLast?_cons_cons]
    | true =>
      simp only [if_true]
      cases hr : (env.RunInDir w p.Command runnable.Fullpath).1.2 with
      | some err => simp [Checked.after]
      | none =>
        simp only
        obtain ⟨h1, h2, h3⟩ := ih (env.RunInDir w p.Command runnable.Fullpath).2
        refine ⟨by simp, ?_, ?_⟩
        · rw [List.chain'_cons']
          refine ⟨?_, h2⟩
          intro d hd
          rw [h1 d hd]
          simp [Checked.after]
        · rw [h3]
          cases hl : (prereqRun env runnable ps (env.RunInDir w p.Command runnable.Fullpath).2).1 with
          | nil => simp [Checked.after]
          | cons x xs =>
            rw [List.getLast?_cons_cons]
            cases hg : (x :: xs).getLast? with
            | none => simp at hg
            | some y => rfl

theorem prereqRun_order (env : Env W) (runnable : RunnableDir) (rules : List Prereq) :
    ∀ w, List.map (fun c => c.rule) (prereqRun env runnable rules w).1 =
        rules.take (prereqRun env runnable rules w).1.length ∧
      (∀ c ∈ (prereqRun env runnable rules w).1.dropLast, c.failure = none) ∧
      ((∀ c ∈ (prereqRun env runnable rules w).1, c.failure = none) →
        (prereqRun env runnable rules w).1.length = rules.length) := by
  induction rules with
  | nil => intro w; simp [prereqRun]
  | cons p ps ih =>
    intro w
    rw [prereqRun]
    have step : ∀ (c : Checked W) (w1 : W), c.rule = p → c.failure = none →
        List.map (fun c => c.rule) (c :: (prereqRun env runnable ps w1).1) =
          (p :: ps).take (c :: (prereqRun env runnable ps w1).1).length ∧
        (∀ d ∈ (c :: (prereqRun env runnable ps w1).1).dropLast, d.failure = none) ∧
        ((∀ d ∈ c :: (prereqRun env runnable ps w1).1, d.failure = none) →
          (c :: (prereqRun env runnable ps w1).1).length = (p :: ps).length) := by
      intro c w1 hc hf
      obtain ⟨h1, h2, h3⟩ := ih w1
      refine ⟨by simp [hc, h1], ?_, ?_⟩
      · intro d hd
        cases hl : (prereqRun env runnable ps w1).1 with
        | nil => rw [hl] at hd; simp at hd
        | cons x xs =>
          rw [hl, List.dropLast_cons₂] at hd
          rcases List.mem_cons.1 hd with hd | hd
          · rw [hd]; exact hf
          · exact h2 d (by rw [hl]; exact hd)
      · intro hall
        simp only [List.length_cons, add_left_inj]
        exact h3 (fun d hd => hall d (List.mem_cons_of_mem _ hd))
    cases h : reportsNotExist env w runnable p with
    | false =>
      simp only [Bool.false_eq_true, if_false]
      exact step _ w rfl rfl
    | true =>
      simp only [if_true]
      cases hr : (env.RunInDir w p.Command runnable.Fullpath).1.2 with
      | some err => simp
      | none =>
        simp only
        exact step _ _ rfl rfl

theorem commandsOf_checkedEvents (env : Env W) (runnable : RunnableDir) (cs : List (Checked W)) :
    commandsOf (checkedEvents env runnable cs) =
      List.map (fun c => (c.rule.Command, runnable.Fullpath))
        (cs.filter (fun c => c.missing)) := by
  induction cs with
  | nil => rfl
  | cons c cs ih =>
    rw [checkedEvents]
    cases hm : c.missing with
    | false => simp [commandsOf, ih, hm]
    | true =>
      cases hf : c.failure with
      | none => simp [commandsOf, ih, hm]
      | some err => simp [commandsOf, ih, hm]

/-- C9. `checkAndRunPreReqs`: an unknown OS or an unknown language returns an
error and leaves result and system untouched (no file is checked).  With rules
for (OS, language) the method does what `prereqRun` says, for every list of
rules: it returns the wrapped error of the fix command that failed (none
otherwise), extends the log by exactly the outputs of the fix commands run, each
followed by a newline, leaves the world the last rule reached left, and adds to
the trace exactly the check of every rule reached and, for a rule whose check
reported "does not exist", the fix command in the runnable's directory.  So the
commands run are exactly the fix commands of the rules reached whose check
reported "does not exist", in order, each in the runnable's directory; every rule
reached was checked in the world the rule before it left (the first in the world
of the call), its fix ran exactly when that check reported "does not exist", and
a rule whose file exists, or whose check fails otherwise, has no command, no
output and no error; the rules reached are the first rules of the table in
order, only the last one reached can have failed, and all are reached if none
failed.  Hence when no rule's check reports "does not exist" in the world of the
call (for instance a second call, after the fixes of a first one created the
files) the call runs no command, leaves the result and the world unchanged and
returns no error.  The same holds rule by rule for the loop of the method. -/
theorem checkAndRunPreReqs_policy (env : Env W) (runnable : RunnableDir)
    (result : BuildResult) (s : Sys W) :
    (env.PreRequisiteCommands env.GOOS = none →
      Builder.checkAndRunPreReqs env runnable result s =
        (some (Err.New ("unsupported OS: " ++ env.GOOS)), result, s)) ∧
    (∀ table, env.PreRequisiteCommands env.GOOS = some table →
      table runnable.Runnable.Lang = none →
      Builder.checkAndRunPreReqs env runnable result s =
        (some (Err.New ("unsupported language: " ++ runnable.Runnable.Lang)), result, s)) ∧
    (∀ table rules, env.PreRequisiteCommands env.GOOS = some table →
      table runnable.Runnable.Lang = some rules →
      ((∀ p ∈ rules, reportsNotExist env s.world runnable p = false) →
        Builder.checkAndRunPreReqs env runnable result s =
          (none, result,
            { world := s.world,
              trace := s.trace ++
                List.map (fun p => Event.Stat (env.Join runnable.Fullpath p.File)) rules })) ∧
      (∃ delta, (Builder.checkAndRunPreReqs env runnable result s).2.2.trace = s.trace ++ delta ∧
        ∀ cmd dir, Event.RunInDir cmd dir ∈ delta →
          dir = runnable.Fullpath ∧ ∃ p ∈ rules, p.Command = cmd)) ∧
    (∀ table rules, env.PreRequisiteCommands env.GOOS = some table →
      table runnable.Runnable.Lang = some rules →
      Builder.checkAndRunPreReqs env runnable result s =
        (checkedError (prereqRun env runnable rules s.world).1,
          { result with OutputLog :=
              result.OutputLog ++ checkedLog (prereqRun env runnable rules s.world).1 },
          { world := (prereqRun env runnable rules s.world).2,
            trace := s.trace ++
              checkedEvents env runnable (prereqRun env runnable rules s.world).1 }) ∧
      commandsOf (checkedEvents env runnable (prereqRun env runnable rules s.world).1) =
        List.map (fun c => (c.rule.Command, runnable.Fullpath))
          ((prereqRun env runnable rules s.world).1.filter (fun c => c.missing)) ∧
      (∀ c ∈ (prereqRun env runnable rules s.world).1,
        c.missing = reportsNotExist env c.before runnable c.rule ∧
        (c.missing = true →
          c.output = (env.RunInDir c.before c.rule.Command runnable.Fullpath).1.1 ∧
          c.failure = (env.RunInDir c.before c.rule.Command runnable.Fullpath).1.2) ∧
        (c.missing = false → c.output = "" ∧ c.failure = none)) ∧
      (∀ c ∈ (prereqRun env runnable rules s.world).1.head?, c.before = s.world) ∧
      List.Chain' (fun c d => d.before = c.after env runnable)
        (prereqRun env runnable rules s.world).1 ∧
      (prereqRun env runnable rules s.world).2 =
        (match (prereqRun env runnable rules s.world).1.getLast? with
          | none => s.world
          | some c => c.after env runnable) ∧
      List.map (fun c => c.rule) (prereqRun env runnable rules s.world).1 =
        rules.take (prereqRun env runnable rules s.world).1.length ∧
      (∀ c ∈ (prereqRun env runnable rules s.world).1.dropLast, c.failure = none) ∧
      ((∀ c ∈ (prereqRun env runnable rules s.world).1, c.failure = none) →
        (prereqRun env runnable rules s.world).1.length = rules.length)) ∧
    (∀ p ps res st, reportsNotExist env st.world runnable p = false →
      Builder.preReqLoop env runnable (p :: ps) res st =
        Builder.preReqLoop env runnable ps res
          (st.emit (Event.Stat (env.Join runnable.Fullpath p.File)))) ∧
    (∀ p ps res st, reportsNotExist env st.world runnable p = true →
      Builder.preReqLoop env runnable (p :: ps) res st =
        match (env.RunInDir st.world p.Command runnable.Fullpath).1.2 with
        | some err =>
          (some (Err.Wrap err ("failed to Run prerequisite: " ++ p.Command)),
            { res with OutputLog := res.OutputLog ++
                ((env.RunInDir st.world p.Command runnable.Fullpath).1.1 ++ "\n") },
            { world := (env.RunInDir st.world p.Command runnable.Fullpath).2,
              trace := st.trace ++ [Event.Stat (env.Join runnable.Fullpath p.File),
                Event.LogStart ("missing " ++ p.File ++ ", fixing..."),
                Event.RunInDir p.Command runnable.Fullpath] })
        | none =>
          Builder.preReqLoop env runnable ps
            { res with OutputLog := res.OutputLog ++
                ((env.RunInDir st.world p.Command runnable.Fullpath).1.1 ++ "\n") }
            { world := (env.RunInDir st.world p.Command runnable.Fullpath).2,
              trace := st.trace ++ [Event.Stat (env.Join runnable.Fullpath p.File),
                Event.LogStart ("missing " ++ p.File ++ ", fixing..."),
                Event.RunInDir p.Command runnable.Fullpath, Event.LogDone "fixed!"] }) := by
  refine ⟨?_, ?_, ?_, ?_, ?_, ?_⟩
  · intro h
    simp [Builder.checkAndRunPreReqs, h]
  · intro table h1 h2
    simp [Builder.checkAndRunPreReqs, h1, h2]
  · intro table rules h1 h2
    have hcall : Builder.checkAndRunPreReqs env runnable result s =
        Builder.preReqLoop env runnable rules result s := by
      simp [Builder.checkAndRunPreReqs, h1, h2]
    rw [hcall]
    exact ⟨preReqLoop_all_present env runnable rules result s,
      preReqLoop_commands env runnable rules result s⟩
  · intro table rules h1 h2
    have hcall : Builder.checkAndRunPreReqs env runnable result s =
        Builder.preReqLoop env runnable rules result s := by
      simp [Builder.checkAndRunPreReqs, h1, h2]
    rw [hcall]
    obtain ⟨w1, w2, w3⟩ := prereqRun_worlds env runnable rules s.world
    obtain ⟨o1, o2, o3⟩ := prereqRun_order env runnable rules s.world
    exact ⟨preReqLoop_run env runnable rules result s,
      commandsOf_checkedEvents env runnable _,
      prereqRun_entries env runnable rules s.world, w1, w2, w3, o1, o2, o3⟩
  · intro p ps res st h
    exact preReqLoop_skip env runnable p ps res st h
  · intro p ps res st h
    exact preReqLoop_fix env runnable p ps res st h

/-- C9 at a concrete input: in an empty world the first call for an
assemblyscript runnable finds `node_modules` missing and runs `npm install`;
the second call, in the world the first one left, only checks the file. -/
theorem checkAndRunPreReqs_policy_witness :
    Builder.checkAndRunPreReqs demoEnv (demoRunnable "hello" "assemblyscript")
        { Succeeded := false, OutputLog := "" } { world := [], trace := [] } =
      (none, { Succeeded := false, OutputLog := "added 1 package\n" },
        { world := [("/app/hello/node_modules", "")],
          trace := [Event.Stat "/app/hello/node_modules",
            Event.LogStart "missing node_modules, fixing...",
            Event.RunInDir "npm install" "/app/hello", Event.LogDone "fixed!"] }) ∧
    Builder.checkAndRunPreReqs demoEnv (demoRunnable "hello" "assemblyscript")
        { Succeeded := false, OutputLog := "added 1 package\n" }
        { world := [("/app/hello/node_modules", "")],
          trace := [Event.Stat "/app/hello/node_modules",
            Event.LogStart "missing node_modules, fixing...",
            Event.RunInDir "npm install" "/app/hello", Event.LogDone "fixed!"] } =
      (none, { Succeeded := false, OutputLog := "added 1 package\n" },
        { world := [("/app/hello/node_modules", "")],
          trace := [Event.Stat "/app/hello/node_modules",
            Event.LogStart "missing node_modules, fixing...",
            Event.RunInDir "npm install" "/app/hello", Event.LogDone "fixed!"] ++
            List.map (fun (p : Prereq) => Event.Stat
              (demoEnv.Join (demoRunnable "hello" "assemblyscript").Fullpath p.File))
              [{ File := "node_modules", Command := "npm install" }] }) :=
  ⟨by decide,
   ((checkAndRunPreReqs_policy demoEnv (demoRunnable "hello" "assemblyscript")
      { Succeeded := false, OutputLog := "added 1 package\n" }
      { world := [("/app/hello/node_modules", "")],
        trace := [Event.Stat "/app/hello/node_modules",
          Event.LogStart "missing node_modules, fixing...",
          Event.RunInDir "npm install" "/app/hello", Event.LogDone "fixed!"] }).2.2.1
      demoPreReqs [{ File := "node_modules", Command := "npm install" }]
      rfl (by decide)).1 (by decide)⟩

/-! ## The native executor -/

theorem flagAfter_cons (old : Bool) (e : Executed) (es : List Executed) :
    flagAfter old (e :: es) = flagAfter (decide (e.failure = none)) es := by
  cases es with
  | nil => simp [flagAfter]
  | cons x xs =>
    simp only [flagAfter, List.getLast?_cons_cons]
    cases h : (x :: xs).getLast? with
    | none => simp at h
    | some y => rfl

theorem nativeLoop_run (env : Env W) (r : RunnableDir) (cmds : List String) :
    ∀ (result : BuildResult) (s : Sys W),
      (Builder.nativeLoop env r cmds result s).2.1.OutputLog =
          result.OutputLog ++ logOf (nativeRun env r cmds s.world).1 ∧
      (Builder.nativeLoop env r cmds result s).2.2 =
          { world := (nativeRun env r cmds s.world).2.2,
            trace := s.trace ++ List.map (fun e => Event.RunInDir e.cmd r.Fullpath)
              (nativeRun env r cmds s.world).1 } ∧
      ((Builder.nativeLoop env r cmds result s).1 ≠ none ↔
          (∃ e ∈ (nativeRun env r cmds s.world).1, e.failure ≠ none) ∨
            (nativeRun env r cmds s.world).2.1 ≠ none) ∧
      (Builder.nativeLoop env r cmds result s).2.1.Succeeded =
          flagAfter result.Succeeded (nativeRun env r cmds s.world).1 := by
  induction cmds with
  | nil =>
    intro result s
    simp [Builder.nativeLoop, nativeRun, logOf, flagAfter]
  | cons c cs ih =>
    intro result s
    rw [Builder.nativeLoop, nativeRun]
    unfold renderCommand
    cases hp : env.TemplateParse c with
    | some err => simp [logOf, flagAfter]
    | none =>
      cases he : env.TemplateExecute c r with
      | error err => simp [logOf, flagAfter]
      | ok fullCmd =>
        simp only
        cases hr : (env.RunInDir s.world (env.TrimSpace fullCmd) r.Fullpath).1.2 with
        | some err => simp [logOf, flagAfter]
        | none =>
          simp only
          obtain ⟨h1, h2, h3, h4⟩ := ih
            { Succeeded := true,
              OutputLog := result.OutputLog ++
                ((env.RunInDir s.world (env.TrimSpace fullCmd) r.Fullpath).1.1 ++ "\n") }
            { world := (env.RunInDir s.world (env.TrimSpace fullCmd) r.Fullpath).2,
              trace := s.trace ++ [Event.RunInDir (env.TrimSpace fullCmd) r.Fullpath] }
          refine ⟨?_, ?_, ?_, ?_⟩
          · rw [h1]; simp [logOf, String.append_assoc]
          · rw [h2]; simp [List.append_assoc]
          · rw [h3]; simp
          · rw [h4, flagAfter_cons]; simp

theorem nativeRun_dropLast (env : Env W) (r : RunnableDir) (cmds : List String) :
    ∀ w, ∀ e ∈ (nativeRun env r cmds w).1.dropLast, e.failure = none := by
  induction cmds with
  | nil => intro w e he; simp [nativeRun] at he
  | cons c cs ih =>
    intro w e he
    rw [nativeRun] at he
    cases hc : renderCommand env r c with
    | error err => rw [hc] at he; simp at he
    | ok cmd =>
      rw [hc] at he
      simp only at he
      cases hr : (env.RunInDir w cmd r.Fullpath).1.2 with
      | some err => rw [hr] at he; simp at he
      | none =>
        rw [hr] at he
        simp only at he
        cases hrest : (nativeRun env r cs (env.RunInDir w cmd r.Fullpath).2).1 with
        | nil => rw [hrest] at he; simp at he
        | cons x xs =>
          rw [hrest, List.dropLast_cons₂] at he
          rcases List.mem_cons.1 he with h | h
          · rw [h]
          · exact ih (env.RunInDir w cmd r.Fullpath).2 e (by rw [hrest]; exact h)

theorem nativeRun_commands (env : Env W) (r : RunnableDir) (cmds : List String) :
    ∀ w, List.map (fun e => Except.ok e.cmd) (nativeRun env r cmds w).1 =
      List.map (renderCommand env r) (cmds.take (nativeRun env r cmds w).1.length) := by
  induction cmds with
  | nil => intro w; simp [nativeRun]
  | cons c cs ih =>
    intro w
    rw [nativeRun]
    cases hc : renderCommand env r c with
    | error err => simp
    | ok cmd =>
      simp only
      cases hr : (env.RunInDir w cmd r.Fullpath).1.2 with
      | some err => simp [hc]
      | none => simp [hc, ih (env.RunInDir w cmd r.Fullpath).2]

theorem nativeRun_complete (env : Env W) (r : RunnableDir) (cmds : List String) :
    ∀ w, (∀ e ∈ (nativeRun env r cmds w).1, e.failure = none) →
      (nativeRun env r cmds w).2.1 = none →
      (nativeRun env r cmds w).1.length = cmds.length := by
  induction cmds with
  | nil => intro w _ _; simp [nativeRun]
  | cons c cs ih =>
    intro w h1 h2
    rw [nativeRun] at h1 h2 ⊢
    cases hc : renderCommand env r c with
    | error err => rw [hc] at h2; simp at h2
    | ok cmd =>
      rw [hc] at h1 h2
      simp only at h1 h2 ⊢
      cases hr : (env.RunInDir w cmd r.Fullpath).1.2 with
      | some err => rw [hr] at h1; simp at h1
      | none =>
        rw [hr] at h1 h2
        simp only at h1 h2 ⊢
        simp only [List.length_cons, add_left_inj]
        exact ih _ (fun e he => h1 e (List.mem_cons_of_mem _ he)) h2

theorem nativeRun_render_error (env : Env W) (r : RunnableDir) (cmds : List String) :
    ∀ w, (nativeRun env r cmds w).2.1 ≠ none →
      (∀ e ∈ (nativeRun env r cmds w).1, e.failure = none) ∧
      (nativeRun env r cmds w).1.length < cmds.length := by
  induction cmds with
  | nil => intro w h; simp [nativeRun] at h
  | cons c cs ih =>
    intro w h
    rw [nativeRun] at h ⊢
    cases hc : renderCommand env r c with
    | error err => simp
    | ok cmd =>
      rw [hc] at h
      simp only at h ⊢
      cases hr : (env.RunInDir w cmd r.Fullpath).1.2 with
      | some err => rw [hr] at h; simp at h
      | none =>
        rw [hr] at h
        simp only at h ⊢
        obtain ⟨h1, h2⟩ := ih _ h
        refine ⟨?_, by simpa using h2⟩
        intro e he
        rcases List.mem_cons.1 he with h3 | h3
        · rw [h3]
        · exact h1 e h3

theorem nativeRun_renders (env : Env W) (r : RunnableDir) (cmds : List String) :
    ∀ w, (∀ c ∈ cmds, ∃ t, renderCommand env r c = .ok t) →
      (nativeRun env r cmds w).2.1 = none := by
  induction cmds with
  | nil => intro w _; simp [nativeRun]
  | cons c cs ih =>
    intro w h
    obtain ⟨t, ht⟩ := h c (List.mem_cons_self _ _)
    rw [nativeRun, ht]
    simp only
    cases hr : (env.RunInDir w t r.Fullpath).1.2 with
    | some err => rfl
    | none => exact ih _ (fun d hd => h d (List.mem_cons_of_mem _ hd))

/-- C5 (amended). For the command templates `cmds` returned for the runnable's
language, `doNativeBuildForRunnable` does what `nativeRun` says: it renders, trims
and runs the templates in order in the runnable's directory and stops after the
first command that fails or before the first template that does not parse or
render.  The log is extended by exactly the outputs of the commands run, each
followed by a newline (the failing one included); the trace gains exactly those
commands, in the runnable's directory, so no later command is run; the commands
run are the renderings of the first templates in order; only the last command
run can have failed; if none failed and every template rendered, all templates
were run.  The error is non-nil iff a command failed or a template did not
render, so iff a command failed when all templates render; a rendering error
leaves all commands run so far successful.  The flag is the outcome of the last
command run alone, and is left as it was when no command was run; with an empty
list nothing changes and no error is returned. -/
theorem doNativeBuildForRunnable_semantics (env : Env W) (r : RunnableDir)
    (cmds : List String) (result : BuildResult) (s : Sys W)
    (hcmds : env.NativeBuildCommands r.Runnable.Lang = .ok cmds) :
    (Builder.doNativeBuildForRunnable env r result s).2.1.OutputLog =
        result.OutputLog ++ logOf (nativeRun env r cmds s.world).1 ∧
    (Builder.doNativeBuildForRunnable env r result s).2.2 =
        { world := (nativeRun env r cmds s.world).2.2,
          trace := s.trace ++ List.map (fun e => Event.RunInDir e.cmd r.Fullpath)
            (nativeRun env r cmds s.world).1 } ∧
    List.map (fun e => Except.ok e.cmd) (nativeRun env r cmds s.world).1 =
        List.map (renderCommand env r) (cmds.take (nativeRun env r cmds s.world).1.length) ∧
    (∀ e ∈ (nativeRun env r cmds s.world).1.dropLast, e.failure = none) ∧
    ((∀ e ∈ (nativeRun env r cmds s.world).1, e.failure = none) →
        (nativeRun env r cmds s.world).2.1 = none →
        (nativeRun env r cmds s.world).1.length = cmds.length) ∧
    ((Builder.doNativeBuildForRunnable env r result s).1 ≠ none ↔
        (∃ e ∈ (nativeRun env r cmds s.world).1, e.failure ≠ none) ∨
          (nativeRun env r cmds s.world).2.1 ≠ none) ∧
    ((∀ c ∈ cmds, ∃ t, renderCommand env r c = .ok t) →
        ((Builder.doNativeBuildForRunnable env r result s).1 ≠ none ↔
          ∃ e ∈ (nativeRun env r cmds s.world).1, e.failure ≠ none)) ∧
    ((nativeRun env r cmds s.world).2.1 ≠ none →
        (∀ e ∈ (nativeRun env r cmds s.world).1, e.failure = none) ∧
        (nativeRun env r cmds s.world).1.length < cmds.length) ∧
    (Builder.doNativeBuildForRunnable env r result s).2.1.Succeeded =
        flagAfter result.Succeeded (nativeRun env r cmds s.world).1 ∧
    (cmds = [] → Builder.doNativeBuildForRunnable env r result s = (none, result, s)) := by
  have hcall : Builder.doNativeBuildForRunnable env r result s =
      Builder.nativeLoop env r cmds result s := by
    simp [Builder.doNativeBuildForRunnable, hcmds]
  rw [hcall]
  obtain ⟨h1, h2, h3, h4⟩ := nativeLoop_run env r cmds result s
  refine ⟨h1, h2, nativeRun_commands env r cmds s.world, nativeRun_dropLast env r cmds s.world,
    nativeRun_complete env r cmds s.world, h3, ?_, nativeRun_render_error env r cmds s.world,
    h4, ?_⟩
  · intro hall
    rw [h3, nativeRun_renders env r cmds s.world hall]
    simp
  · intro hnil
    subst hnil
    rfl

/-- C5 at a concrete input: a rust runnable whose directory is broken; the first
of its two commands fails, and the log holds its output. -/
theorem doNativeBuildForRunnable_semantics_witness :
    demoEnv.NativeBuildCommands (demoRunnable "rs" "rust").Runnable.Lang =
        .ok ["cargo build ", "cp target/out.wasm ."] ∧
    (Builder.doNativeBuildForRunnable demoEnv (demoRunnable "rs" "rust")
        { Succeeded := true, OutputLog := "" }
        { world := [("/app/rs/BROKEN", "")], trace := [] }).2.1.OutputLog =
      "" ++ logOf (nativeRun demoEnv (demoRunnable "rs" "rust")
        ["cargo build ", "cp target/out.wasm ."] [("/app/rs/BROKEN", "")]).1 ∧
    Builder.doNativeBuildForRunnable demoEnv (demoRunnable "rs" "rust")
        { Succeeded := true, OutputLog := "" }
        { world := [("/app/rs/BROKEN", "")], trace := [] } =
      (some (Err.Wrap (Err.New "exit status 1") "failed to RunInDir"),
        { Succeeded := false, OutputLog := "error: could not compile\n" },
        { world := [("/app/rs/BROKEN", "")],
          trace := [Event.RunInDir "cargo build" "/app/rs"] }) :=
  ⟨rfl,
   (doNativeBuildForRunnable_semantics demoEnv (demoRunnable "rs" "rust")
      ["cargo build ", "cp target/out.wasm ."] { Succeeded := true, OutputLog := "" }
      { world := [("/app/rs/BROKEN", "")], trace := [] } rfl).1,
   by decide⟩

/-- C5 as stated fails: the templates of the swift runnable are "swift build"
and the text of an unclosed action.  The one command run succeeds, yet the call
returns an error (the second template does not parse), it stops neither at a
failing command nor after the last template, and the flag is true. -/
theorem doNativeBuildForRunnable_error_without_failed_command :
    demoEnv.NativeBuildCommands (demoRunnable "sw" "swift").Runnable.Lang =
        .ok ["swift build", "\x7b\x7b"] ∧
    Builder.doNativeBuildForRunnable demoEnv (demoRunnable "sw" "swift")
        { Succeeded := false, OutputLog := "" } { world := [], trace := [] } =
      (some (Err.Wrap (Err.New "template: cmd:1: unclosed action")
          "failed to Parse command template"),
        { Succeeded := true, OutputLog := "ok\n" },
        { world := [], trace := [Event.RunInDir "swift build" "/app/sw"] }) ∧
    ¬ ((Builder.doNativeBuildForRunnable demoEnv (demoRunnable "sw" "swift")
          { Succeeded := false, OutputLog := "" } { world := [], trace := [] }).1 ≠ none ↔
        ∃ e ∈ (nativeRun demoEnv (demoRunnable "sw" "swift")
          ["swift build", "\x7b\x7b"] []).1, e.failure ≠ none) := by
  refine ⟨rfl, by decide, by decide⟩

/-! ## The pass over the runnables -/

theorem runnablesLoop_skip (env : Env W) (tcn : Toolchain) (langs : List String)
    (r : RunnableDir) (rs : List RunnableDir) (results : List BuildResult)
    (dockerLangs : List String) (s : Sys W)
    (h : env.ShouldBuildLang langs r.Runnable.Lang = false) :
    Builder.runnablesLoop env tcn langs (r :: rs) results dockerLangs s =
      Builder.runnablesLoop env tcn langs rs results dockerLangs s := by
  rw [Builder.runnablesLoop]
  simp [h]

theorem runnablesLoop_filter (env : Env W) (tcn : Toolchain) (langs : List String)
    (rs : List RunnableDir) :
    ∀ (results : List BuildResult) (dockerLangs : List String) (s : Sys W),
      Builder.runnablesLoop env tcn langs
          (rs.filter (fun r => env.ShouldBuildLang langs r.Runnable.Lang)) results dockerLangs s =
        Builder.runnablesLoop env tcn langs rs results dockerLangs s := by
  induction rs with
  | nil => intro results dockerLangs s; rfl
  | cons r rs ih =>
    intro results dockerLangs s
    cases h : env.ShouldBuildLang langs r.Runnable.Lang with
    | false =>
      rw [List.filter_cons_of_neg (by simp [h]), runnablesLoop_skip env tcn langs r rs _ _ _ h]
      exact ih results dockerLangs s
    | true =>
      rw [List.filter_cons_of_pos (by simp [h])]
      rw [Builder.runnablesLoop, Builder.runnablesLoop]
      simp only [h, not_true_eq_false, if_false]
      split
      · split <;> simp_all
      · exact ih _ _ _

theorem runnablesLoop_append (env : Env W) (tcn : Toolchain) (langs : List String)
    (xs ys : List RunnableDir) :
    ∀ (results : List BuildResult) (dockerLangs : List String) (s : Sys W),
      Builder.runnablesLoop env tcn langs (xs ++ ys) results dockerLangs s =
        match Builder.runnablesLoop env tcn langs xs results dockerLangs s with
        | (some err, results1, dockerLangs1, s1) => (some err, results1, dockerLangs1, s1)
        | (none, results1, dockerLangs1, s1) =>
          Builder.runnablesLoop env tcn langs ys results1 dockerLangs1 s1 := by
  induction xs with
  | nil => intro results dockerLangs s; simp [Builder.runnablesLoop]
  | cons r rs ih =>
    intro results dockerLangs s
    rw [List.cons_append, Builder.runnablesLoop, Builder.runnablesLoop]
    split
    · exact ih _ _ _
    · split
      · split <;> simp_all
      · exact ih _ _ _

theorem runnablesLoop_docker (env : Env W) (tcn : Toolchain) (langs : List String)
    (htcn : tcn ≠ ToolchainNative) (rs : List RunnableDir) :
    ∀ (results : List BuildResult) (dockerLangs : List String) (s : Sys W),
      Builder.runnablesLoop env tcn langs rs results dockerLangs s =
        (none, results,
          List.foldl mapSet dockerLangs (List.map (fun r => r.Runnable.Lang)
            (rs.filter (fun r => env.ShouldBuildLang langs r.Runnable.Lang))), s) := by
  induction rs with
  | nil => intro results dockerLangs s; rfl
  | cons r rs ih =>
    intro results dockerLangs s
    cases h : env.ShouldBuildLang langs r.Runnable.Lang with
    | false =>
      rw [List.filter_cons_of_neg (by simp [h]), runnablesLoop_skip env tcn langs r rs _ _ _ h]
      exact ih results dockerLangs s
    | true =>
      rw [List.filter_cons_of_pos (by simp [h]), Builder.runnablesLoop]
      simp only [h, not_true_eq_false, if_false, htcn]
      rw [ih]
      rfl

theorem foldl_mapSet (l : List String) :
    ∀ acc : List String, acc.Nodup →
      (List.foldl mapSet acc l).Nodup ∧ ∀ x, x ∈ List.foldl mapSet acc l ↔ x ∈ acc ∨ x ∈ l := by
  induction l with
  | nil => intro acc h; simp [h]
  | cons a l ih =>
    intro acc h
    have hstep : (mapSet acc a).Nodup ∧ ∀ x, x ∈ mapSet acc a ↔ x ∈ acc ∨ x = a := by
      unfold mapSet
      by_cases ha : a ∈ acc
      · simp only [ha, if_true]
        refine ⟨h, fun x => ⟨Or.inl, ?_⟩⟩
        rintro (hx | hx)
        · exact hx
        · rw [hx]; exact ha
      · simp only [ha, if_false]
        refine ⟨?_, fun x => by simp⟩
        rw [List.nodup_append]
        refine ⟨h, List.nodup_singleton a, ?_⟩
        intro x hx hx2
        simp at hx2
        rw [hx2] at hx
        exact ha hx
    obtain ⟨h1, h2⟩ := ih (mapSet acc a) hstep.1
    refine ⟨h1, fun x => ?_⟩
    rw [List.foldl_cons, h2 x, hstep.2 x]
    simp [or_assoc]

theorem foldl_mapSet_perm (l : List String) : (List.foldl mapSet [] l).Perm l.dedup := by
  obtain ⟨h1, h2⟩ := foldl_mapSet l [] List.nodup_nil
  rw [List.perm_ext_iff_of_nodup h1 (List.nodup_dedup l)]
  intro x
  rw [h2 x]
  simp

theorem dockerLoop_withRunnables (env : Env W) (b : Builder) (rs : List RunnableDir)
    (ls : List String) :
    ∀ (results : List BuildResult) (s : Sys W),
      Builder.dockerLoop env (withRunnables b rs) ls results s =
        Builder.dockerLoop env b ls results s := by
  induction ls with
  | nil => intro results s; rfl
  | cons l ls ih =>
    intro results s
    rw [Builder.dockerLoop, Builder.dockerLoop]
    have h : Builder.dockerBuildForLang env (withRunnables b rs) l s =
        Builder.dockerBuildForLang env b l s := rfl
    rw [h]
    split
    · rfl
    · exact ih _ _

theorem dockerLoop_success (env : Env W) (b : Builder) (ls : List String) :
    ∀ (results : List BuildResult) (s : Sys W),
      (Builder.dockerLoop env b ls results s).1 = none →
      (Builder.dockerLoop env b ls results s).2.2.trace =
          s.trace ++ List.map (fun lang => Event.Run (dockerCommand b.Context
            (env.ImageForLang lang b.Context.BuilderTag) lang)) ls ∧
      ∃ added, (Builder.dockerLoop env b ls results s).2.1 = results ++ added ∧
        added.length = ls.length ∧ ∀ x ∈ added, x.Succeeded = true := by
  induction ls with
  | nil => intro results s _; exact ⟨by simp [Builder.dockerLoop], [], by simp [Builder.dockerLoop]⟩
  | cons l ls ih =>
    intro results s h
    rw [Builder.dockerLoop] at h ⊢
    unfold Builder.dockerBuildForLang at h ⊢
    by_cases himg : env.ImageForLang l b.Context.BuilderTag = ""
    · simp [himg] at h
    · simp only [himg, if_false] at h ⊢
      cases hr : (env.Run s.world (dockerCommand b.Context
          (env.ImageForLang l b.Context.BuilderTag) l)).1.2 with
      | some err => rw [hr] at h; simp at h
      | none =>
        rw [hr] at h
        simp only at h ⊢
        obtain ⟨h1, added, h2, h3, h4⟩ := ih _ _ h
        refine ⟨?_, ?_⟩
        · rw [h1]; simp [List.append_assoc]
        · refine ⟨{ Succeeded := true, OutputLog := (env.Run s.world (dockerCommand b.Context
            (env.ImageForLang l b.Context.BuilderTag) l)).1.1 } :: added, ?_, by simp [h3], ?_⟩
          · rw [h2]; simp [List.append_assoc]
          · intro x hx
            rcases List.mem_cons.1 hx with hx | hx
            · rw [hx]
            · exact h4 x hx

theorem BuildWithToolchain_docker (env : Env W) (b : Builder) (s : Sys W) :
    Builder.BuildWithToolchain env ToolchainDocker b s =
      ((Builder.dockerLoop env b
          (env.MapRange (List.foldl mapSet [] (allowedLangs env b.Context))) [] s).1,
        { b with results := (Builder.dockerLoop env b
          (env.MapRange (List.foldl mapSet [] (allowedLangs env b.Context))) [] s).2.1 },
        (Builder.dockerLoop env b
          (env.MapRange (List.foldl mapSet [] (allowedLangs env b.Context))) [] s).2.2) := by
  unfold Builder.BuildWithToolchain
  rw [runnablesLoop_docker env ToolchainDocker b.Context.Langs (by decide)]
  simp [allowedLangs]

theorem docker_builds (env : Env W) (b : Builder) (s : Sys W)
    (hrange : ∀ keys : List String, keys.Nodup → (env.MapRange keys).Perm keys)
    (hok : (Builder.BuildWithToolchain env ToolchainDocker b s).1 = none) :
    ∃ order : List String, order.Perm (allowedLangs env b.Context).dedup ∧
      (Builder.BuildWithToolchain env ToolchainDocker b s).2.2.trace =
        s.trace ++ List.map (fun lang => Event.Run (dockerCommand b.Context
          (env.ImageForLang lang b.Context.BuilderTag) lang)) order ∧
      (Builder.BuildWithToolchain env ToolchainDocker b s).2.1.results.length =
        (allowedLangs env b.Context).dedup.length ∧
      ∀ x ∈ (Builder.BuildWithToolchain env ToolchainDocker b s).2.1.results,
        x.Succeeded = true := by
  rw [BuildWithToolchain_docker] at hok ⊢
  have hnodup := (foldl_mapSet (allowedLangs env b.Context) [] List.nodup_nil).1
  have hperm := (hrange _ hnodup).trans (foldl_mapSet_perm (allowedLangs env b.Context))
  obtain ⟨h1, added, h2, h3, h4⟩ := dockerLoop_success env b _ [] s hok
  refine ⟨_, hperm, h1, ?_, ?_⟩
  · simp only [h2, List.nil_append, h3]
    exact hperm.length_eq
  · simp only [h2, List.nil_append]
    exact h4

/-- C6. In a containerized pass in which every container build succeeds (the
pass returns no error), given that `range` visits every key of a map exactly
once: the docker commands run are exactly one per distinct language of the
allow-listed runnables, in some order `order` that is a permutation of those
distinct languages, nothing else is called, the number of results equals the
number of distinct languages and every result has succeeded.  The same holds
with the same set of languages for every permutation of the runnables, so the
count and the set of languages built do not depend on their order. -/
theorem docker_once_per_language (env : Env W) (b : Builder) (s : Sys W)
    (hrange : ∀ keys : List String, keys.Nodup → (env.MapRange keys).Perm keys)
    (hok : (Builder.BuildWithToolchain env ToolchainDocker b s).1 = none) :
    (∃ order : List String, order.Perm (allowedLangs env b.Context).dedup ∧ order.Nodup ∧
      (Builder.BuildWithToolchain env ToolchainDocker b s).2.2.trace =
        s.trace ++ List.map (fun lang => Event.Run (dockerCommand b.Context
          (env.ImageForLang lang b.Context.BuilderTag) lang)) order ∧
      (Builder.BuildWithToolchain env ToolchainDocker b s).2.1.results.length =
        (allowedLangs env b.Context).dedup.length ∧
      ∀ x ∈ (Builder.BuildWithToolchain env ToolchainDocker b s).2.1.results,
        x.Succeeded = true) ∧
    (∀ (rs : List RunnableDir) (s2 : Sys W), rs.Perm b.Context.Runnables →
      (Builder.BuildWithToolchain env ToolchainDocker (withRunnables b rs) s2).1 = none →
      ∃ order : List String, order.Perm (allowedLangs env b.Context).dedup ∧ order.Nodup ∧
        (Builder.BuildWithToolchain env ToolchainDocker (withRunnables b rs) s2).2.2.trace =
          s2.trace ++ List.map (fun lang => Event.Run (dockerCommand b.Context
            (env.ImageForLang lang b.Context.BuilderTag) lang)) order ∧
        (Builder.BuildWithToolchain env ToolchainDocker (withRunnables b rs) s2).2.1.results.length =
          (allowedLangs env b.Context).dedup.length) := by
  constructor
  · obtain ⟨order, h1, h2, h3, h4⟩ := docker_builds env b s hrange hok
    exact ⟨order, h1, h1.nodup_iff.2 (List.nodup_dedup _), h2, h3, h4⟩
  · intro rs s2 hperm hok2
    obtain ⟨order, h1, h2, h3, _⟩ := docker_builds env (withRunnables b rs) s2 hrange hok2
    have hp : (allowedLangs env (withRunnables b rs).Context).dedup.Perm
        (allowedLangs env b.Context).dedup := by
      apply List.Perm.dedup
      exact (hperm.filter _).map _
    refine ⟨order, h1.trans hp, (h1.trans hp).nodup_iff.2 (List.nodup_dedup _), h2, ?_⟩
    rw [h3]
    exact hp.length_eq

/-- C6 at a concrete input: runnables with languages rust, rust, tinygo give
exactly two docker commands, one for each language. -/
theorem docker_once_per_language_witness :
    (Builder.BuildWithToolchain demoEnv ToolchainDocker
        { Context := demoContext [demoRunnable "a" "rust", demoRunnable "b" "rust",
            demoRunnable "c" "tinygo"] [] none, results := [] }
        { world := [], trace := [] }).2.2.trace =
      [Event.Run (dockerCommand (demoContext [] [] none) "suborbital/builder-tinygo:v0.4.2" "tinygo"),
       Event.Run (dockerCommand (demoContext [] [] none) "suborbital/builder-rust:v0.4.2" "rust")] ∧
    ∃ order : List String,
      order.Perm (allowedLangs demoEnv (demoContext [demoRunnable "a" "rust",
        demoRunnable "b" "rust", demoRunnable "c" "tinygo"] [] none)).dedup ∧ order.Nodup ∧
      (Builder.BuildWithToolchain demoEnv ToolchainDocker
        { Context := demoContext [demoRunnable "a" "rust", demoRunnable "b" "rust",
            demoRunnable "c" "tinygo"] [] none, results := [] }
        { world := [], trace := [] }).2.2.trace =
        [] ++ List.map (fun lang => Event.Run (dockerCommand (demoContext [demoRunnable "a" "rust",
            demoRunnable "b" "rust", demoRunnable "c" "tinygo"] [] none)
          (demoEnv.ImageForLang lang "v0.4.2") lang)) order ∧
      (Builder.BuildWithToolchain demoEnv ToolchainDocker
        { Context := demoContext [demoRunnable "a" "rust", demoRunnable "b" "rust",
            demoRunnable "c" "tinygo"] [] none, results := [] }
        { world := [], trace := [] }).2.1.results.length =
        (allowedLangs demoEnv (demoContext [demoRunnable "a" "rust",
          demoRunnable "b" "rust", demoRunnable "c" "tinygo"] [] none)).dedup.length ∧
      ∀ x ∈ (Builder.BuildWithToolchain demoEnv ToolchainDocker
        { Context := demoContext [demoRunnable "a" "rust", demoRunnable "b" "rust",
            demoRunnable "c" "tinygo"] [] none, results := [] }
        { world := [], trace := [] }).2.1.results, x.Succeeded = true :=
  ⟨by decide,
   (docker_once_per_language demoEnv
      { Context := demoContext [demoRunnable "a" "rust", demoRunnable "b" "rust",
          demoRunnable "c" "tinygo"] [] none, results := [] }
      { world := [], trace := [] } (fun keys _ => List.reverse_perm keys) (by decide)).1⟩

/-- C7. A runnable whose language `ShouldBuildLang` rejects contributes nothing
to `BuildWithToolchain`, whatever the toolchain: the pass over the runnables
returns the same error, records the same results and leaves the same world and
the same trace of collaborator calls as the pass over the allow-listed runnables
alone; the loop steps over a rejected runnable without any call; the languages
collected for the containerized builds are exactly the languages of allow-listed
runnables; and when every runnable is rejected a pass that is not containerized
records no result and makes no call. -/
theorem BuildWithToolchain_allow_list (env : Env W) (tcn : Toolchain) (b : Builder) (s : Sys W) :
    ((Builder.BuildWithToolchain env tcn (withRunnables b (b.Context.Runnables.filter
          (fun r => env.ShouldBuildLang b.Context.Langs r.Runnable.Lang))) s).1 =
        (Builder.BuildWithToolchain env tcn b s).1 ∧
      (Builder.BuildWithToolchain env tcn (withRunnables b (b.Context.Runnables.filter
          (fun r => env.ShouldBuildLang b.Context.Langs r.Runnable.Lang))) s).2.1.results =
        (Builder.BuildWithToolchain env tcn b s).2.1.results ∧
      (Builder.BuildWithToolchain env tcn (withRunnables b (b.Context.Runnables.filter
          (fun r => env.ShouldBuildLang b.Context.Langs r.Runnable.Lang))) s).2.2 =
        (Builder.BuildWithToolchain env tcn b s).2.2) ∧
    (∀ r rs results dockerLangs st, env.ShouldBuildLang b.Context.Langs r.Runnable.Lang = false →
      Builder.runnablesLoop env tcn b.Context.Langs (r :: rs) results dockerLangs st =
        Builder.runnablesLoop env tcn b.Context.Langs rs results dockerLangs st) ∧
    (tcn ≠ ToolchainNative → ∀ lang,
      lang ∈ (Builder.runnablesLoop env tcn b.Context.Langs b.Context.Runnables [] [] s).2.2.1 ↔
        ∃ r ∈ b.Context.Runnables,
          env.ShouldBuildLang b.Context.Langs r.Runnable.Lang = true ∧ r.Runnable.Lang = lang) ∧
    ((∀ r ∈ b.Context.Runnables, env.ShouldBuildLang b.Context.Langs r.Runnable.Lang = false) →
      tcn ≠ ToolchainDocker →
      Builder.BuildWithToolchain env tcn b s = (none, { b with results := [] }, s)) := by
  refine ⟨?_, ?_, ?_, ?_⟩
  · unfold Builder.BuildWithToolchain
    have hl : (withRunnables b (b.Context.Runnables.filter
        (fun r => env.ShouldBuildLang b.Context.Langs r.Runnable.Lang))).Context.Langs =
        b.Context.Langs := rfl
    have hr : (withRunnables b (b.Context.Runnables.filter
        (fun r => env.ShouldBuildLang b.Context.Langs r.Runnable.Lang))).Context.Runnables =
        b.Context.Runnables.filter
          (fun r => env.ShouldBuildLang b.Context.Langs r.Runnable.Lang) := rfl
    rw [hl, hr, runnablesLoop_filter]
    split
    · exact ⟨rfl, rfl, rfl⟩
    · split
      · rw [dockerLoop_withRunnables]
        exact ⟨rfl, rfl, rfl⟩
      · exact ⟨rfl, rfl, rfl⟩
  · intro r rs results dockerLangs st h
    exact runnablesLoop_skip env tcn b.Context.Langs r rs results dockerLangs st h
  · intro htcn lang
    rw [runnablesLoop_docker env tcn b.Context.Langs htcn]
    simp only
    rw [(foldl_mapSet _ [] List.nodup_nil).2 lang]
    simp only [List.not_mem_nil, false_or, List.mem_map, List.mem_filter]
    constructor
    · rintro ⟨r, ⟨h1, h2⟩, h3⟩
      exact ⟨r, h1, h2, h3⟩
    · rintro ⟨r, h1, h2, h3⟩
      exact ⟨r, ⟨h1, h2⟩, h3⟩
  · intro hall htcn
    unfold Builder.BuildWithToolchain
    rw [← runnablesLoop_filter]
    have hf : b.Context.Runnables.filter
        (fun r => env.ShouldBuildLang b.Context.Langs r.Runnable.Lang) = [] := by
      rw [List.filter_eq_nil_iff]
      intro r hr
      simp [hall r hr]
    rw [hf]
    simp [Builder.runnablesLoop, htcn]

/-! ## Native fail-fast -/

theorem nativeBody_recorded (env : Env W) (m : RunnableDir) (s : Sys W) (err : Option Err)
    (res : BuildResult) (s2 : Sys W) (h : Builder.nativeBody env m s = (err, some res, s2)) :
    ∃ flags res1 s3 e s4,
      Builder.doNativeBuildForRunnable env { m with CompilerFlags := flags } res1 s3 =
        (e, res, s4) ∧
      ((e = none ∧ err = none) ∨
        (∃ e1, e = some e1 ∧ err = some (Err.Wrap e1 ("🚫 failed to build " ++ m.Name)) ∧
          s2 = s4)) := by
  unfold Builder.nativeBody at h
  simp only at h
  split at h
  · simp at h
  · split at h
    · simp at h
    · rename_i flags s3 hflags
      split at h
      · rename_i e1 result2 s4 hdo
        simp only [Prod.mk.injEq, Option.some.injEq] at h
        obtain ⟨h1, h2, h3⟩ := h
        by_cases hf : flags ≠ ""
        · rw [if_pos hf] at hdo
          exact ⟨flags, _, _, some e1, s4, by rw [hdo, h2], Or.inr ⟨e1, rfl, h1.symm, h3.symm⟩⟩
        · rw [if_neg hf] at hdo
          exact ⟨m.CompilerFlags, _, _, some e1, s4, by rw [hdo, h2],
            Or.inr ⟨e1, rfl, h1.symm, h3.symm⟩⟩
      · rename_i result2 s4 hdo
        simp only [Prod.mk.injEq, Option.some.injEq] at h
        obtain ⟨h1, h2, h3⟩ := h
        by_cases hf : flags ≠ ""
        · rw [if_pos hf] at hdo
          exact ⟨flags, _, _, none, s4, by rw [hdo, h2], Or.inl ⟨rfl, h1.symm⟩⟩
        · rw [if_neg hf] at hdo
          exact ⟨m.CompilerFlags, _, _, none, s4, by rw [hdo, h2], Or.inl ⟨rfl, h1.symm⟩⟩

theorem nativeBody_none (env : Env W) (m : RunnableDir) (s : Sys W)
    (h : (Builder.nativeBody env m s).1 = none) :
    ∃ res, (Builder.nativeBody env m s).2.1 = some res := by
  unfold Builder.nativeBody at h ⊢
  simp only at h ⊢
  split
  · rename_i h1; rw [h1] at h; simp at h
  · rename_i h1
    rw [h1] at h
    simp only at h ⊢
    split
    · rename_i h2; rw [h2] at h; simp at h
    · rename_i h2
      rw [h2] at h
      simp only at h ⊢
      split
      · rename_i h3; rw [h3] at h; simp at h
      · exact ⟨_, rfl⟩

theorem doNative_error_flag (env : Env W) (r1 : RunnableDir) (cmds : List String)
    (res1 : BuildResult) (s3 : Sys W)
    (hcmds : env.NativeBuildCommands r1.Runnable.Lang = .ok cmds)
    (hfail : ∃ x ∈ (nativeRun env r1 cmds s3.world).1, x.failure ≠ none) :
    (Builder.doNativeBuildForRunnable env r1 res1 s3).2.1.Succeeded = false := by
  have hcall : Builder.doNativeBuildForRunnable env r1 res1 s3 =
      Builder.nativeLoop env r1 cmds res1 s3 := by
    simp [Builder.doNativeBuildForRunnable, hcmds]
  rw [hcall]
  obtain ⟨_, _, _, h4⟩ := nativeLoop_run env r1 cmds res1 s3
  obtain ⟨e, he, hef⟩ := hfail
  have hne : (nativeRun env r1 cmds s3.world).1 ≠ [] := List.ne_nil_of_mem he
  rw [h4, flagAfter, List.getLast?_eq_getLast _ hne]
  simp only [decide_eq_false_iff_not]
  rw [← List.dropLast_append_getLast hne, List.mem_append, List.mem_singleton] at he
  rcases he with he | he
  · exact absurd (nativeRun_dropLast env r1 cmds s3.world e he) hef
  · rw [← he]; exact hef

theorem doNative_ok_flag (env : Env W) (r1 : RunnableDir) (res1 : BuildResult) (s3 : Sys W)
    (hne : env.NativeBuildCommands r1.Runnable.Lang ≠ .ok [])
    (hok : (Builder.doNativeBuildForRunnable env r1 res1 s3).1 = none) :
    (Builder.doNativeBuildForRunnable env r1 res1 s3).2.1.Succeeded = true := by
  unfold Builder.doNativeBuildForRunnable at hok ⊢
  cases hc : env.NativeBuildCommands r1.Runnable.Lang with
  | error err => rw [hc] at hok; simp at hok
  | ok cmds =>
    rw [hc] at hok
    simp only at hok ⊢
    have hcn : cmds ≠ [] := fun h => hne (by rw [hc, h])
    obtain ⟨_, _, h3, h4⟩ := nativeLoop_run env r1 cmds res1 s3
    have hno : ¬ ((∃ e ∈ (nativeRun env r1 cmds s3.world).1, e.failure ≠ none) ∨
        (nativeRun env r1 cmds s3.world).2.1 ≠ none) := by
      rw [← h3]; simp [hok]
    rw [not_or] at hno
    have hall : ∀ e ∈ (nativeRun env r1 cmds s3.world).1, e.failure = none := by
      intro e he
      by_contra hf
      exact hno.1 ⟨e, he, hf⟩
    have hlen := nativeRun_complete env r1 cmds s3.world hall (by simpa using hno.2)
    have hrun : (nativeRun env r1 cmds s3.world).1 ≠ [] := by
      intro h
      rw [h] at hlen
      exact hcn (List.length_eq_zero.1 hlen.symm)
    rw [h4, flagAfter, List.getLast?_eq_getLast _ hrun]
    simp only [decide_eq_true_eq]
    exact hall _ (List.getLast_mem hrun)

theorem runnablesLoop_native_ok (env : Env W) (langs : List String) (pre : List RunnableDir) :
    ∀ (results : List BuildResult) (dl : List String) (s : Sys W) (rs : List BuildResult)
      (dl1 : List String) (s1 : Sys W),
      (∀ r ∈ pre, env.ShouldBuildLang langs r.Runnable.Lang = true) →
      (∀ r ∈ pre, env.NativeBuildCommands r.Runnable.Lang ≠ .ok []) →
      Builder.runnablesLoop env ToolchainNative langs pre results dl s = (none, rs, dl1, s1) →
      ∃ added, rs = results ++ added ∧ added.length = pre.length ∧
        ∀ x ∈ added, x.Succeeded = true := by
  induction pre with
  | nil =>
    intro results dl s rs dl1 s1 _ _ h
    simp only [Builder.runnablesLoop, Prod.mk.injEq, true_and] at h
    exact ⟨[], by simp [h.1], rfl, by simp⟩
  | cons r pre ih =>
    intro results dl s rs dl1 s1 hallow hne h
    rw [Builder.runnablesLoop] at h
    simp only [hallow r (List.mem_cons_self _ _), not_true_eq_false, if_false, if_true] at h
    obtain ⟨res, hres⟩ : ∃ res, (Builder.nativeBody env r s).2.1 = some res := by
      apply nativeBody_none
      cases hb : (Builder.nativeBody env r s).1 with
      | none => rfl
      | some e =>
        exfalso
        revert h
        split <;> simp_all
    cases hb : (Builder.nativeBody env r s).1 with
    | some e =>
      exfalso
      revert h
      split <;> simp_all
    | none =>
      have hbody : Builder.nativeBody env r s = (none, some res, (Builder.nativeBody env r s).2.2) := by
        rw [← hb, ← hres]
      rw [hbody] at h
      simp only at h
      obtain ⟨added, h1, h2, h3⟩ := ih _ _ _ _ _ _
        (fun x hx => hallow x (List.mem_cons_of_mem _ hx))
        (fun x hx => hne x (List.mem_cons_of_mem _ hx)) h
      refine ⟨res :: added, by rw [h1]; simp, by simp [h2], ?_⟩
      intro x hx
      rcases List.mem_cons.1 hx with hx | hx
      · rw [hx]
        obtain ⟨flags, res1, s3, e, s4, hdo, hcase⟩ := nativeBody_recorded env r s none res _ hbody
        rcases hcase with ⟨he, _⟩ | ⟨e1, _, he, _⟩
        · have := doNative_ok_flag env { r with CompilerFlags := flags } res1 s3
            (hne r (List.mem_cons_self _ _)) (by rw [hdo, he])
          rw [hdo] at this
          exact this
        · cases he
      · exact h3 x hx

/-- C1 (amended). Native fail-fast with retention.  The runnables are
`pre ++ m :: post`, all allow-listed; the pass over `pre` returns no error (it
leaves the results `rs` and the system `s1`) and every runnable of `pre` has at
least one build command; for `m` the prerequisites and the flag inference
succeed, one of its build commands fails, and its build returns the error `e`
with the result `res`.  Then `BuildWithToolchain` returns the error `e` wrapped with
"failed to build" and the name of `m` (so its message contains that name), the
results are `rs ++ [res]`: one result per runnable of `pre`, in order, each with
`Succeeded = true`, then the result of `m` with `Succeeded = false`; and the
system is left as the build of `m` left it, exactly as in the pass over
`pre ++ [m]` alone: nothing is checked, inferred or run for `post`. -/
theorem native_fail_fast (env : Env W) (b : Builder) (s : Sys W)
    (pre post : List RunnableDir) (m : RunnableDir)
    (rs : List BuildResult) (dl : List String) (s1 : Sys W)
    (res1 : BuildResult) (s2 : Sys W) (flags : String) (s3 : Sys W)
    (e : Err) (res : BuildResult) (s4 : Sys W) (cmds : List String)
    (hmods : b.Context.Runnables = pre ++ m :: post)
    (hallow : ∀ r ∈ b.Context.Runnables,
      env.ShouldBuildLang b.Context.Langs r.Runnable.Lang = true)
    (hpre : Builder.runnablesLoop env ToolchainNative b.Context.Langs pre [] [] s =
      (none, rs, dl, s1))
    (hne : ∀ r ∈ pre, env.NativeBuildCommands r.Runnable.Lang ≠ .ok [])
    (hprereq : Builder.checkAndRunPreReqs env m { Succeeded := false, OutputLog := "" }
        (s1.emit (Event.LogStart
          ("building runnable: " ++ m.Name ++ " (" ++ m.Runnable.Lang ++ ")"))) =
      (none, res1, s2))
    (hflags : Builder.analyzeForCompilerFlags env m s2 = ((flags, none), s3))
    (hcmds : env.NativeBuildCommands m.Runnable.Lang = .ok cmds)
    (hfailed : ∃ x ∈ (nativeRun env
        (if flags ≠ "" then { m with CompilerFlags := flags } else m) cmds s3.world).1,
      x.failure ≠ none)
    (hbuild : Builder.doNativeBuildForRunnable env
        (if flags ≠ "" then { m with CompilerFlags := flags } else m) res1 s3 =
      (some e, res, s4)) :
    Builder.BuildWithToolchain env ToolchainNative b s =
      (some (Err.Wrap e ("🚫 failed to build " ++ m.Name)),
        { b with results := rs ++ [res] }, s4) ∧
    (Err.Wrap e ("🚫 failed to build " ++ m.Name)).Error =
      "🚫 failed to build " ++ m.Name ++ (": " ++ e.Error) ∧
    rs.length = pre.length ∧
    (∀ x ∈ rs, x.Succeeded = true) ∧
    res.Succeeded = false ∧
    (Builder.BuildWithToolchain env ToolchainNative (withRunnables b (pre ++ [m])) s).1 =
      some (Err.Wrap e ("🚫 failed to build " ++ m.Name)) ∧
    (Builder.BuildWithToolchain env ToolchainNative (withRunnables b (pre ++ [m])) s).2.1.results =
      rs ++ [res] ∧
    (Builder.BuildWithToolchain env ToolchainNative (withRunnables b (pre ++ [m])) s).2.2 = s4 := by
  have hbody : Builder.nativeBody env m s1 =
      (some (Err.Wrap e ("🚫 failed to build " ++ m.Name)), some res, s4) := by
    unfold Builder.nativeBody
    simp only [hprereq, hflags, hbuild]
  have hm : env.ShouldBuildLang b.Context.Langs m.Runnable.Lang = true :=
    hallow m (by rw [hmods]; simp)
  have hloop : ∀ tail : List RunnableDir,
      Builder.runnablesLoop env ToolchainNative b.Context.Langs (pre ++ m :: tail) [] [] s =
        (some (Err.Wrap e ("🚫 failed to build " ++ m.Name)), rs ++ [res], dl, s4) := by
    intro tail
    rw [runnablesLoop_append, hpre]
    simp only
    rw [Builder.runnablesLoop]
    simp only [hm, not_true_eq_false, if_false, if_true, hbody]
  obtain ⟨added, h1, h2, h3⟩ := runnablesLoop_native_ok env b.Context.Langs pre [] [] s rs dl s1
    (fun r hr => hallow r (by rw [hmods]; exact List.mem_append_left _ hr)) hne hpre
  rw [List.nil_append] at h1
  have hflag : res.Succeeded = false := by
    have := doNative_error_flag env _ cmds res1 s3
      (by split <;> exact hcmds) hfailed
    rw [hbuild] at this
    exact this
  refine ⟨?_, ?_, ?_, ?_, hflag, ?_, ?_, ?_⟩
  · unfold Builder.BuildWithToolchain
    rw [hmods, hloop post]
  · simp [Err.Error, String.append_assoc]
  · rw [h1]; exact h2
  · rw [h1]; exact h3
  · unfold Builder.BuildWithToolchain
    show (match Builder.runnablesLoop env ToolchainNative b.Context.Langs (pre ++ [m]) [] [] s with
      | (some err, results, _, s1) => (some err, { withRunnables b (pre ++ [m]) with results := results }, s1)
      | (none, results, dockerLangs, s1) => _).1 = _
    rw [hloop []]
  · unfold Builder.BuildWithToolchain
    show (match Builder.runnablesLoop env ToolchainNative b.Context.Langs (pre ++ [m]) [] [] s with
      | (some err, results, _, s1) => (some err, { withRunnables b (pre ++ [m]) with results := results }, s1)
      | (none, results, dockerLangs, s1) => _).2.1.results = _
    rw [hloop []]
  · unfold Builder.BuildWithToolchain
    show (match Builder.runnablesLoop env ToolchainNative b.Context.Langs (pre ++ [m]) [] [] s with
      | (some err, results, _, s1) => (some err, { withRunnables b (pre ++ [m]) with results := results }, s1)
      | (none, results, dockerLangs, s1) => _).2.2 = _
    rw [hloop []]

/-- C1 at a concrete input: rust runnables a, b, c, the directory of b broken.
The pass fails on b with the results of a and b; nothing is run for c. -/
theorem native_fail_fast_witness :
    Builder.BuildWithToolchain demoEnv ToolchainNative
        { Context := demoContext [demoRunnable "a" "rust", demoRunnable "b" "rust",
            demoRunnable "c" "rust"] [] none, results := [] }
        { world := demoBroken, trace := [] } =
      (some (Err.Wrap (Err.Wrap (Err.New "exit status 1") "failed to RunInDir")
          ("🚫 failed to build " ++ (demoRunnable "b" "rust").Name)),
        { Context := demoContext [demoRunnable "a" "rust", demoRunnable "b" "rust",
            demoRunnable "c" "rust"] [] none,
          results := [{ Succeeded := true, OutputLog := "ok\nok\n" }] ++
            [{ Succeeded := false, OutputLog := "error: could not compile\n" }] },
        { world := demoBroken,
          trace := [Event.LogStart "building runnable: a (rust)",
            Event.RunInDir "cargo build" "/app/a",
            Event.RunInDir "cp target/out.wasm ." "/app/a",
            Event.LogDone "a was built -> /app/a/a.wasm",
            Event.LogStart "building runnable: b (rust)",
            Event.RunInDir "cargo build" "/app/b"] }) :=
  (native_fail_fast demoEnv
    { Context := demoContext [demoRunnable "a" "rust", demoRunnable "b" "rust",
        demoRunnable "c" "rust"] [] none, results := [] }
    { world := demoBroken, trace := [] }
    [demoRunnable "a" "rust"] [demoRunnable "c" "rust"] (demoRunnable "b" "rust")
    [{ Succeeded := true, OutputLog := "ok\nok\n" }] []
    { world := demoBroken,
      trace := [Event.LogStart "building runnable: a (rust)",
        Event.RunInDir "cargo build" "/app/a",
        Event.RunInDir "cp target/out.wasm ." "/app/a",
        Event.LogDone "a was built -> /app/a/a.wasm"] }
    { Succeeded := false, OutputLog := "" }
    { world := demoBroken,
      trace := [Event.LogStart "building runnable: a (rust)",
        Event.RunInDir "cargo build" "/app/a",
        Event.RunInDir "cp target/out.wasm ." "/app/a",
        Event.LogDone "a was built -> /app/a/a.wasm",
        Event.LogStart "building runnable: b (rust)"] }
    ""
    { world := demoBroken,
      trace := [Event.LogStart "building runnable: a (rust)",
        Event.RunInDir "cargo build" "/app/a",
        Event.RunInDir "cp target/out.wasm ." "/app/a",
        Event.LogDone "a was built -> /app/a/a.wasm",
        Event.LogStart "building runnable: b (rust)"] }
    (Err.Wrap (Err.New "exit status 1") "failed to RunInDir")
    { Succeeded := false, OutputLog := "error: could not compile\n" }
    { world := demoBroken,
      trace := [Event.LogStart "building runnable: a (rust)",
        Event.RunInDir "cargo build" "/app/a",
        Event.RunInDir "cp target/out.wasm ." "/app/a",
        Event.LogDone "a was built -> /app/a/a.wasm",
        Event.LogStart "building runnable: b (rust)",
        Event.RunInDir "cargo build" "/app/b"] }
    ["cargo build ", "cp target/out.wasm ."]
    rfl (by decide) (by decide) (by decide) (by decide) (by decide) rfl (by decide)
    (by decide)).1

/-- C1 as stated fails: runnable g is of a language with an empty list of build
commands, runnable b fails to build.  The work for g returns no error (its
prerequisites, its flag inference and its build all succeed), the pass fails on
b, and the result recorded for g has `Succeeded = false`. -/
theorem native_fail_fast_empty_command_list :
    (Builder.nativeBody demoEnv (demoRunnable "g" "grain")
        { world := demoBroken, trace := [] }).1 = none ∧
    (Builder.BuildWithToolchain demoEnv ToolchainNative
        { Context := demoContext [demoRunnable "g" "grain", demoRunnable "b" "rust"] [] none,
          results := [] }
        { world := demoBroken, trace := [] }).1 =
      some (Err.Wrap (Err.Wrap (Err.New "exit status 1") "failed to RunInDir")
        "🚫 failed to build b") ∧
    (Builder.BuildWithToolchain demoEnv ToolchainNative
        { Context := demoContext [demoRunnable "g" "grain", demoRunnable "b" "rust"] [] none,
          results := [] }
        { world := demoBroken, trace := [] }).2.1.results =
      [{ Succeeded := false, OutputLog := "" },
       { Succeeded := false, OutputLog := "error: could not compile\n" }] := by
  refine ⟨by decide, by decide, by decide⟩

/-! ## The version bump of a headless directive -/

theorem digitChar_isDigit : ∀ k, k < 10 → (Nat.digitChar k).isDigit = true := by decide

theorem digitChar_ne_zero : ∀ k, k < 10 → 0 < k → Nat.digitChar k ≠ '0' := by decide

theorem digitChar_value : ∀ k, k < 10 → (Nat.digitChar k).toNat - 48 = k := by decide

theorem toDigitsCore_isDigit (fuel : Nat) :
    ∀ (n : Nat) (ds : List Char), (∀ c ∈ ds, c.isDigit = true) →
      ∀ c ∈ Nat.toDigitsCore 10 fuel n ds, c.isDigit = true := by
  induction fuel with
  | zero => intro n ds h c hc; exact h c (by simpa [Nat.toDigitsCore] using hc)
  | succ fuel ih =>
    intro n ds h c hc
    rw [Nat.toDigitsCore] at hc
    have hd : ∀ c ∈ Nat.digitChar (n % 10) :: ds, c.isDigit = true := by
      intro c hc
      rcases List.mem_cons.1 hc with h1 | h1
      · rw [h1]; exact digitChar_isDigit _ (Nat.mod_lt _ (by decide))
      · exact h c h1
    by_cases h0 : n / 10 = 0
    · simp only [h0, if_true] at hc
      exact hd c hc
    · simp only [h0, if_false] at hc
      exact ih _ _ hd c hc

theorem foldl_value (ds : List Char) :
    ∀ a : Nat, List.foldl (fun n c => 10 * n + (c.toNat - 48)) a ds =
      a * 10 ^ ds.length + digitsValue ds := by
  unfold digitsValue
  induction ds with
  | nil => intro a; simp
  | cons d ds ih =>
    intro a
    rw [List.foldl_cons, List.foldl_cons, ih, ih (10 * 0 + (d.toNat - 48))]
    simp only [List.length_cons, pow_succ]
    ring

theorem toDigitsCore_value (fuel : Nat) :
    ∀ (n : Nat) (ds : List Char), n < fuel →
      digitsValue (Nat.toDigitsCore 10 fuel n ds) = n * 10 ^ ds.length + digitsValue ds := by
  induction fuel with
  | zero => intro n ds h; omega
  | succ fuel ih =>
    intro n ds h
    rw [Nat.toDigitsCore]
    have hv : digitsValue (Nat.digitChar (n % 10) :: ds) =
        (n % 10) * 10 ^ ds.length + digitsValue ds := by
      have := foldl_value ds (10 * 0 + ((Nat.digitChar (n % 10)).toNat - 48))
      rw [digitChar_value _ (Nat.mod_lt _ (by decide))] at this
      unfold digitsValue at this ⊢
      rw [List.foldl_cons, digitChar_value _ (Nat.mod_lt _ (by decide))]
      simpa using this
    by_cases h0 : n / 10 = 0
    · simp only [h0, if_true]
      rw [hv]
      have : n % 10 = n := Nat.mod_eq_of_lt (by omega)
      rw [this]
    · simp only [h0, if_false]
      rw [ih _ _ (by omega), hv]
      simp only [List.length_cons, pow_succ]
      have h10 := Nat.div_add_mod n 10
      calc n / 10 * (10 ^ ds.length * 10) + (n % 10 * 10 ^ ds.length + digitsValue ds)
          = (10 * (n / 10) + n % 10) * 10 ^ ds.length + digitsValue ds := by ring
        _ = n * 10 ^ ds.length + digitsValue ds := by rw [h10]

theorem toDigitsCore_head (fuel : Nat) :
    ∀ (n : Nat) (ds : List Char), n < fuel → 0 < n →
      ∃ c rest, Nat.toDigitsCore 10 fuel n ds = c :: rest ∧ c ≠ '0' := by
  induction fuel with
  | zero => intro n ds h; omega
  | succ fuel ih =>
    intro n ds h hn
    rw [Nat.toDigitsCore]
    by_cases h0 : n / 10 = 0
    · simp only [h0, if_true]
      refine ⟨_, _, rfl, ?_⟩
      have : n % 10 = n := Nat.mod_eq_of_lt (by omega)
      rw [this]
      exact digitChar_ne_zero n (by omega) hn
    · simp only [h0, if_false]
      exact ih _ _ (by omega) (by omega)

theorem toDigits_facts (n : Nat) :
    (∀ c ∈ Nat.toDigits 10 n, c.isDigit = true) ∧ digitsValue (Nat.toDigits 10 n) = n ∧
      ∃ c cs, Nat.toDigits 10 n = c :: cs ∧ (c = '0' → cs = []) := by
  refine ⟨toDigitsCore_isDigit _ _ _ (by simp), ?_, ?_⟩
  · have := toDigitsCore_value (n + 1) n [] (by omega)
    simpa [digitsValue, Nat.toDigits] using this
  · rcases Nat.eq_zero_or_pos n with h | h
    · subst h
      exact ⟨'0', [], by decide, fun _ => rfl⟩
    · obtain ⟨c, rest, h1, h2⟩ := toDigitsCore_head (n + 1) n [] (by omega) h
      exact ⟨c, rest, h1, fun hc => absurd hc h2⟩

theorem takeWhile_digits (cs rest : List Char) (h : ∀ c ∈ cs, c.isDigit = true)
    (hrest : ∀ x ∈ rest.head?, ¬ x.isDigit = true) :
    (cs ++ rest).takeWhile Char.isDigit = cs ∧ (cs ++ rest).dropWhile Char.isDigit = rest := by
  induction cs with
  | nil =>
    cases rest with
    | nil => simp
    | cons x xs =>
      have := hrest x (by simp)
      simp [List.takeWhile, List.dropWhile, this]
  | cons c cs ih =>
    have hc := h c (List.mem_cons_self _ _)
    obtain ⟨h1, h2⟩ := ih (fun x hx => h x (List.mem_cons_of_mem _ hx))
    simp [List.takeWhile, List.dropWhile, hc, h1, h2]

theorem semverParseInt_digits (n : Nat) (rest : List Char)
    (hrest : ∀ x ∈ rest.head?, ¬ x.isDigit = true) :
    semverParseInt (Nat.toDigits 10 n ++ rest) = some (Nat.toDigits 10 n, rest) := by
  obtain ⟨h1, _, c, cs, h3, h4⟩ := toDigits_facts n
  rw [h3] at h1 ⊢
  have hc := h1 c (List.mem_cons_self _ _)
  obtain ⟨h5, h6⟩ := takeWhile_digits cs rest (fun x hx => h1 x (List.mem_cons_of_mem _ hx)) hrest
  rw [List.cons_append, semverParseInt]
  simp only [hc, not_true_eq_false, if_false, h5, h6]
  by_cases h0 : c = '0'
  · simp [h0, h4 h0]
  · simp [h0]

theorem semverParseMajor_version (M m p : Nat) :
    semverParseMajor ('v' :: (Nat.toDigits 10 M ++ '.' :: (Nat.toDigits 10 m ++
      '.' :: Nat.toDigits 10 p))) = some (Nat.toDigits 10 M) := by
  have hdot : ∀ (t : List Char), ∀ x ∈ ('.' :: t).head?, ¬ x.isDigit = true := by
    intro t x hx
    simp at hx
    rw [← hx]
    decide
  have h3 : semverParseInt (Nat.toDigits 10 p) = some (Nat.toDigits 10 p, []) := by
    have := semverParseInt_digits p [] (by simp)
    simpa using this
  rw [semverParseMajor]
  simp only [semverParseInt_digits M _ (hdot _), semverParseInt_digits m _ (hdot _), h3]
  simp [semverParseTail]

theorem version_data (M m p : Nat) :
    ("v" ++ toString M ++ "." ++ toString m ++ "." ++ toString p).data =
      'v' :: (Nat.toDigits 10 M ++ '.' :: (Nat.toDigits 10 m ++ '.' :: Nat.toDigits 10 p)) := by
  simp [toString, Nat.repr, List.asString]

theorem strconvAtoi_digits (M : Nat) (hM : M < 2 ^ 63) :
    strconvAtoi (String.mk (Nat.toDigits 10 M)) = ((M : Int), true) := by
  obtain ⟨h1, h2, c, cs, h3, _⟩ := toDigits_facts M
  have hc := h1 c (by rw [h3]; exact List.mem_cons_self _ _)
  have hminus : c ≠ '-' := by
    intro h; rw [h] at hc; exact absurd hc (by decide)
  have hplus : c ≠ '+' := by
    intro h; rw [h] at hc; exact absurd hc (by decide)
  unfold strconvAtoi
  simp only [h3, List.head?_cons, Option.some.injEq, hminus, hplus, or_self, if_false,
    decide_False]
  rw [← h3]
  have hall : (Nat.toDigits 10 M).all Char.isDigit = true := by
    rw [List.all_eq_true]; exact h1
  have hne : Nat.toDigits 10 M ≠ [] := by rw [h3]; simp
  simp only [hne, hall, not_true_eq_false, or_self, if_false, h2]
  have h63 : ¬ ((2 : Nat) ^ 63 ≤ M) := by omega
  rw [if_neg (by simp only [Bool.false_eq_true, not_false_eq_true, true_and]; exact h63)]
  rw [if_neg (by simp)]
  simp

theorem wrapInt64_small (M : Nat) (hM : M + 1 < 2 ^ 63) :
    wrapInt64 ((M : Int) + 1) = ((M + 1 : Nat) : Int) := by
  unfold wrapInt64
  have h3 : ((M : Int) + 1 + 2 ^ 63) % 2 ^ 64 = (M : Int) + 1 + 2 ^ 63 := by
    apply Int.emod_eq_of_lt <;> omega
  rw [h3]
  push_cast
  omega
theorem stringsTrimPrefix_v (cs : List Char) :
    stringsTrimPrefix (String.mk ('v' :: cs)) "v" = String.mk cs := by
  unfold stringsTrimPrefix
  have h : ("v" : String).data = ['v'] := rfl
  rw [h]
  have hp : ['v'] <+: 'v' :: cs := ⟨cs, rfl⟩
  rw [if_pos hp]
  rfl

theorem toString_natCast (n : Nat) : toString ((n : Nat) : Int) = toString n := rfl

theorem bumpAppVersion_eq (v : String) :
    bumpAppVersion v =
      "v" ++ toString (wrapInt64 ((strconvAtoi (stringsTrimPrefix (semverMajor v) "v")).1 + 1))
        ++ ".0.0" := rfl

theorem semverMajor_version (M m p : Nat) :
    semverMajor ("v" ++ toString M ++ "." ++ toString m ++ "." ++ toString p) =
      String.mk ('v' :: Nat.toDigits 10 M) := by
  unfold semverMajor
  rw [version_data, semverParseMajor_version]

theorem bumpAppVersion_version (M m p : Nat) (hM : M + 1 < 2 ^ 63) :
    bumpAppVersion ("v" ++ toString M ++ "." ++ toString m ++ "." ++ toString p) =
      "v" ++ toString (M + 1) ++ ".0.0" := by
  have hM2 : M < 2 ^ 63 := by omega
  have h3 : (strconvAtoi (stringsTrimPrefix (semverMajor
      ("v" ++ toString M ++ "." ++ toString m ++ "." ++ toString p)) "v")).1 = (M : Int) := by
    rw [semverMajor_version, stringsTrimPrefix_v, strconvAtoi_digits M hM2]
  rw [bumpAppVersion_eq, h3, wrapInt64_small M hM, toString_natCast]

/-! ## Bundle -/

theorem bundleRest_fails (env : Env W) (b : Builder) (d : Directive) (s : Sys W)
    (h : validationFails env b.Context.Runnables d = true) :
    (Builder.bundleRest env b d s).1 ≠ none ∧
    (Builder.bundleRest env b d s).2.2.world = s.world ∧
    ((Builder.bundleRest env b d s).2.2.trace =
        s.trace ++ [Event.AugmentAndValidateDirectiveFns] ∨
      (Builder.bundleRest env b d s).2.2.trace =
        s.trace ++ [Event.AugmentAndValidateDirectiveFns, Event.Validate]) := by
  unfold validationFails at h
  unfold Builder.bundleRest
  cases ha : env.AugmentAndValidateDirectiveFns d b.Context.Runnables with
  | error err => simp [Sys.emit]
  | ok fns =>
    rw [ha] at h
    simp only at h ⊢
    cases hv : env.Validate { d with Runnables := fns } with
    | none => rw [hv] at h; simp at h
    | some err => simp [Sys.emit]

theorem bundleRest_no_directive_write (env : Env W) (b : Builder) (d : Directive) (s : Sys W) :
    ∃ delta, (Builder.bundleRest env b d s).2.2.trace = s.trace ++ delta ∧
      delta.head? = some Event.AugmentAndValidateDirectiveFns ∧
      ∀ cwd d1, Event.WriteDirectiveFile cwd d1 ∉ delta := by
  unfold Builder.bundleRest
  simp only [Sys.emit]
  cases ha : env.AugmentAndValidateDirectiveFns d b.Context.Runnables with
  | error err => exact ⟨[Event.AugmentAndValidateDirectiveFns], by simp, rfl, by simp⟩
  | ok fns =>
    simp only
    cases hv : env.Validate { d with Runnables := fns } with
    | some err =>
      exact ⟨[Event.AugmentAndValidateDirectiveFns, Event.Validate], by simp, rfl, by simp⟩
    | none =>
      simp only
      cases hs : env.CollectStaticFiles s.world b.Context.Cwd with
      | error err =>
        exact ⟨[Event.AugmentAndValidateDirectiveFns, Event.Validate,
          Event.CollectStaticFiles b.Context.Cwd], by simp, rfl, by simp⟩
      | ok static =>
        simp only
        cases hm : env.Marshal { d with Runnables := fns } with
        | error err =>
          cases static with
          | none =>
            exact ⟨[Event.AugmentAndValidateDirectiveFns, Event.Validate,
              Event.CollectStaticFiles b.Context.Cwd, Event.Marshal], by simp, rfl, by simp⟩
          | some st =>
            exact ⟨[Event.AugmentAndValidateDirectiveFns, Event.Validate,
              Event.CollectStaticFiles b.Context.Cwd,
              Event.LogInfo "adding static files to bundle", Event.Marshal],
              by simp, rfl, by simp⟩
        | ok directiveBytes =>
          simp only
          cases static with
          | none =>
            simp only [Option.isSome_none, Bool.false_eq_true, if_false]
            split
            · exact ⟨[Event.AugmentAndValidateDirectiveFns, Event.Validate,
                Event.CollectStaticFiles b.Context.Cwd, Event.Marshal, Event.Modules],
                by simp, rfl, by simp⟩
            · rename_i modules _
              split
              · exact ⟨[Event.AugmentAndValidateDirectiveFns, Event.Validate,
                  Event.CollectStaticFiles b.Context.Cwd, Event.Marshal, Event.Modules,
                  Event.BundleWrite directiveBytes modules none b.Context.BundleFullpath],
                  by simp, rfl, by simp⟩
              · exact ⟨[Event.AugmentAndValidateDirectiveFns, Event.Validate,
                  Event.CollectStaticFiles b.Context.Cwd, Event.Marshal, Event.Modules,
                  Event.BundleWrite directiveBytes modules none b.Context.BundleFullpath],
                  by simp, rfl, by simp⟩
          | some st =>
            simp only [Option.isSome_some, if_true]
            split
            · exact ⟨[Event.AugmentAndValidateDirectiveFns, Event.Validate,
                Event.CollectStaticFiles b.Context.Cwd,
                Event.LogInfo "adding static files to bundle", Event.Marshal, Event.Modules],
                by simp, rfl, by simp⟩
            · rename_i modules _
              split
              · exact ⟨[Event.AugmentAndValidateDirectiveFns, Event.Validate,
                  Event.CollectStaticFiles b.Context.Cwd,
                  Event.LogInfo "adding static files to bundle", Event.Marshal, Event.Modules,
                  Event.BundleWrite directiveBytes modules (some st) b.Context.BundleFullpath],
                  by simp, rfl, by simp⟩
              · exact ⟨[Event.AugmentAndValidateDirectiveFns, Event.Validate,
                  Event.CollectStaticFiles b.Context.Cwd,
                  Event.LogInfo "adding static files to bundle", Event.Marshal, Event.Modules,
                  Event.BundleWrite directiveBytes modules (some st) b.Context.BundleFullpath],
                  by simp, rfl, by simp⟩

theorem bundleRest_appVersion (env : Env W) (b : Builder) (d : Directive) (s : Sys W)
    (hd : b.Context.Directive = some d) :
    (Builder.bundleRest env b d s).2.1.Context.Directive.map (fun x => x.AppVersion) =
      some d.AppVersion := by
  unfold Builder.bundleRest
  simp only
  split
  · simp [hd]
  · split
    · simp
    · split
      · simp
      · split
        · simp
        · split
          · simp
          · split <;> simp

/-- C4 (amended). With a non-empty result list, when augmenting the function
entries or validating fails for the directive that `Bundle` validates, `Bundle`
returns an error and the bundle writer is never invoked.  When the context has
no directive or one that is not headless, no write happens at all: the world is
unchanged and no call of the trace is a write.  When the directive is headless,
the directive file has been written once, with the bumped version, before the
validation: the trace gains the notice, that one write, and then calls none of
which is a write, and the world is the one that write left. -/
theorem bundle_validation_failure (env : Env W) (b : Builder) (s : Sys W)
    (hres : b.results ≠ [])
    (hfail : validationFails env b.Context.Runnables (resolvedDirective env b) = true) :
    ((∀ d, b.Context.Directive = some d → d.Headless = false) →
      (Builder.Bundle env b s).1 ≠ none ∧
      (Builder.Bundle env b s).2.2.world = s.world ∧
      ∃ delta, (Builder.Bundle env b s).2.2.trace = s.trace ++ delta ∧
        ∀ e ∈ delta, e.isWrite = false) ∧
    (∀ d, b.Context.Directive = some d → d.Headless = true →
      (Builder.Bundle env b s).1 ≠ none ∧
      (Builder.Bundle env b s).2.2.world =
        (env.WriteDirectiveFile s.world b.Context.Cwd
          { d with AppVersion := bumpAppVersion d.AppVersion }).2 ∧
      ∃ delta, (Builder.Bundle env b s).2.2.trace =
          s.trace ++ [Event.LogInfo "updating Directive",
            Event.WriteDirectiveFile b.Context.Cwd
              { d with AppVersion := bumpAppVersion d.AppVersion }] ++ delta ∧
        ∀ e ∈ delta, e.isWrite = false) := by
  have hlen : ¬ b.results.length = 0 := fun h => hres (List.length_eq_zero.1 h)
  have key : ∀ (b1 : Builder) (d1 : Directive) (s1 : Sys W),
      validationFails env b1.Context.Runnables d1 = true →
      (Builder.bundleRest env b1 d1 s1).1 ≠ none ∧
      (Builder.bundleRest env b1 d1 s1).2.2.world = s1.world ∧
      ∃ delta, (Builder.bundleRest env b1 d1 s1).2.2.trace = s1.trace ++ delta ∧
        ∀ e ∈ delta, e.isWrite = false := by
    intro b1 d1 s1 h
    refine ⟨(bundleRest_fails env b1 d1 s1 h).1, (bundleRest_fails env b1 d1 s1 h).2.1, ?_⟩
    rcases (bundleRest_fails env b1 d1 s1 h).2.2 with h1 | h1
    · exact ⟨_, h1, by simp [Event.isWrite]⟩
    · exact ⟨_, h1, by simp [Event.isWrite]⟩
  constructor
  · intro hnot
    unfold Builder.Bundle
    simp only [hlen, if_false]
    cases hd : b.Context.Directive with
    | none =>
      simp only [resolvedDirective, hd] at hfail
      simp only
      exact key _ _ _ hfail
    | some d =>
      have hh := hnot d hd
      simp only [resolvedDirective, hd, hh, Bool.false_eq_true, if_false] at hfail
      simp only [hh, Bool.false_eq_true, if_false]
      exact key _ _ _ hfail
  · intro d hd hh
    unfold resolvedDirective at hfail
    simp only [hd] at hfail
    rw [if_pos hh] at hfail
    unfold Builder.Bundle
    simp only [hlen, if_false, hd]
    rw [if_pos hh]
    simp only [Sys.emit]
    split
    · exact ⟨by simp, rfl, [], by simp, by simp⟩
    · obtain ⟨h0, h1, delta, h2, h3⟩ := key
        { b with Context := { b.Context with
            Directive := some { d with AppVersion := bumpAppVersion d.AppVersion } } }
        { d with AppVersion := bumpAppVersion d.AppVersion }
        { world := (env.WriteDirectiveFile s.world b.Context.Cwd
            { d with AppVersion := bumpAppVersion d.AppVersion }).2,
          trace := s.trace ++ [Event.LogInfo "updating Directive"] ++
            [Event.WriteDirectiveFile b.Context.Cwd
              { d with AppVersion := bumpAppVersion d.AppVersion }] } hfail
      refine ⟨h0, h1, delta, ?_, h3⟩
      rw [h2]
      simp [List.append_assoc]

/-- C4 at a concrete input: a directive that is not headless and has no
identifier fails validation; nothing is written. -/
theorem bundle_validation_failure_witness :
    (Builder.Bundle demoEnv
        { Context := demoContext [] [] (some (demoDirective "" "v2.3.1" false)),
          results := [{ Succeeded := true, OutputLog := "" }] }
        { world := [], trace := [] }).1 ≠ none ∧
    (Builder.Bundle demoEnv
        { Context := demoContext [] [] (some (demoDirective "" "v2.3.1" false)),
          results := [{ Succeeded := true, OutputLog := "" }] }
        { world := [], trace := [] }).2.2.world = [] ∧
    ∃ delta, (Builder.Bundle demoEnv
        { Context := demoContext [] [] (some (demoDirective "" "v2.3.1" false)),
          results := [{ Succeeded := true, OutputLog := "" }] }
        { world := [], trace := [] }).2.2.trace = [] ++ delta ∧
      ∀ e ∈ delta, e.isWrite = false :=
  (bundle_validation_failure demoEnv
    { Context := demoContext [] [] (some (demoDirective "" "v2.3.1" false)),
      results := [{ Succeeded := true, OutputLog := "" }] }
    { world := [], trace := [] } (by decide) (by decide)).1 (by decide)

/-- C4 as stated fails for a headless directive: validation fails (the directive
has no identifier), `Bundle` returns that error, and the directive file has been
written, with the bumped version, before the validation. -/
theorem bundle_validation_failure_after_directive_write :
    validationFails demoEnv []
        (resolvedDirective demoEnv
          { Context := demoContext [] [] (some (demoDirective "" "v2.3.1" true)),
            results := [{ Succeeded := true, OutputLog := "" }] }) = true ∧
    Builder.Bundle demoEnv
        { Context := demoContext [] [] (some (demoDirective "" "v2.3.1" true)),
          results := [{ Succeeded := true, OutputLog := "" }] }
        { world := [], trace := [] } =
      (some (Err.Wrap (Err.New "identifier is missing") "🚫 failed to Validate Directive"),
        { Context := demoContext [] [] (some (demoDirective "" "v3.0.0" true)),
          results := [{ Succeeded := true, OutputLog := "" }] },
        { world := [("/app/Directive.yaml", "v3.0.0")],
          trace := [Event.LogInfo "updating Directive",
            Event.WriteDirectiveFile "/app" (demoDirective "" "v3.0.0" true),
            Event.AugmentAndValidateDirectiveFns, Event.Validate] }) := by
  refine ⟨by decide, by decide⟩

/-- C3 (amended). With a non-empty result list and a directive `d` in the
context.  When `d` is headless and its application version is vM.m.p with
M + 1 below 2^63 (Go's `int` holds M + 1), `Bundle` sets the application version
to v(M+1).0.0 and writes the directive file with it before the validation: the
trace gains the notice, then that write, then the rest, which is empty (the write
failed) or starts with the augmentation of the function entries and holds no
other write of the directive file.  When `d` is not headless the application
version is unchanged and the directive file is never written. -/
theorem bundle_headless_bump (env : Env W) (b : Builder) (s : Sys W) (d : Directive)
    (hres : b.results ≠ []) (hd : b.Context.Directive = some d) :
    (d.Headless = true → ∀ M m p : Nat, M + 1 < 2 ^ 63 →
      d.AppVersion = "v" ++ toString M ++ "." ++ toString m ++ "." ++ toString p →
      (Builder.Bundle env b s).2.1.Context.Directive.map (fun x => x.AppVersion) =
        some ("v" ++ toString (M + 1) ++ ".0.0") ∧
      ∃ rest, (Builder.Bundle env b s).2.2.trace =
          s.trace ++ [Event.LogInfo "updating Directive",
            Event.WriteDirectiveFile b.Context.Cwd
              { d with AppVersion := "v" ++ toString (M + 1) ++ ".0.0" }] ++ rest ∧
        (rest = [] ∨ rest.head? = some Event.AugmentAndValidateDirectiveFns) ∧
        ∀ cwd d1, Event.WriteDirectiveFile cwd d1 ∉ rest) ∧
    (d.Headless = false →
      (Builder.Bundle env b s).2.1.Context.Directive.map (fun x => x.AppVersion) =
        some d.AppVersion ∧
      ∃ delta, (Builder.Bundle env b s).2.2.trace = s.trace ++ delta ∧
        ∀ cwd d1, Event.WriteDirectiveFile cwd d1 ∉ delta) := by
  have hlen : ¬ b.results.length = 0 := fun h => hres (List.length_eq_zero.1 h)
  constructor
  · intro hh M m p hM hv
    have hb : bumpAppVersion d.AppVersion = "v" ++ toString (M + 1) ++ ".0.0" := by
      rw [hv, bumpAppVersion_version M m p hM]
    unfold Builder.Bundle
    simp only [hlen, if_false, hd]
    rw [if_pos hh]
    simp only [Sys.emit, hb]
    split
    · exact ⟨rfl, [], by simp, Or.inl rfl, by simp⟩
    · obtain ⟨delta, h1, h2, h3⟩ := bundleRest_no_directive_write env
        { b with Context := { b.Context with
            Directive := some { d with AppVersion := "v" ++ toString (M + 1) ++ ".0.0" } } }
        { d with AppVersion := "v" ++ toString (M + 1) ++ ".0.0" }
        { world := (env.WriteDirectiveFile s.world b.Context.Cwd
            { d with AppVersion := "v" ++ toString (M + 1) ++ ".0.0" }).2,
          trace := s.trace ++ [Event.LogInfo "updating Directive"] ++
            [Event.WriteDirectiveFile b.Context.Cwd
              { d with AppVersion := "v" ++ toString (M + 1) ++ ".0.0" }] }
      refine ⟨?_, delta, ?_, Or.inr h2, h3⟩
      · exact bundleRest_appVersion env _ _ _ rfl
      · rw [h1]
        simp [List.append_assoc]
  · intro hh
    unfold Builder.Bundle
    simp only [hlen, if_false, hd]
    rw [if_neg (by simp [hh])]
    obtain ⟨delta, h1, _, h3⟩ := bundleRest_no_directive_write env b d s
    exact ⟨bundleRest_appVersion env b d s hd, delta, h1, h3⟩

/-- C3 at a concrete input: the headless directive with version v2.3.1 gets
v3.0.0. -/
theorem bundle_headless_bump_witness :
    (Builder.Bundle demoEnv
        { Context := demoContext [] [] (some (demoDirective "com.example" "v2.3.1" true)),
          results := [{ Succeeded := true, OutputLog := "" }] }
        { world := [], trace := [] }).2.1.Context.Directive.map (fun x => x.AppVersion) =
      some "v3.0.0" :=
  ((bundle_headless_bump demoEnv
    { Context := demoContext [] [] (some (demoDirective "com.example" "v2.3.1" true)),
      results := [{ Succeeded := true, OutputLog := "" }] }
    { world := [], trace := [] }
    (demoDirective "com.example" "v2.3.1" true)
    (by decide) rfl).1 rfl 2 3 1 (by decide) (by decide)).1

/-- C3 as stated fails: v9223372036854775807.0.0 is a valid semantic version,
its major number is the largest `int`, and adding one wraps around: the headless
directive gets the version v-9223372036854775808.0.0, not
v9223372036854775808.0.0. -/
theorem bundle_headless_bump_overflow :
    semverMajor "v9223372036854775807.0.0" = "v9223372036854775807" ∧
    (Builder.Bundle demoEnv
        { Context := demoContext [] [] (some (demoDirective "com.example" "v9223372036854775807.0.0" true)),
          results := [{ Succeeded := true, OutputLog := "" }] }
        { world := [], trace := [] }).2.1.Context.Directive.map (fun x => x.AppVersion) =
      some "v-9223372036854775808.0.0" ∧
    "v-9223372036854775808.0.0" ≠ "v" ++ toString (9223372036854775807 + 1) ++ ".0.0" := by
  refine ⟨by decide, by decide, by decide⟩

/-- C2 fails on the code: a result is not recorded when the prerequisite fix
fails or when the container process fails.  First pass, native: `npm install`
fails for the one runnable; its output had been appended to the result's log,
and the trace shows the work started, but the result list is empty.  Second
pass, containerized: the docker command fails and the result list is empty. -/
theorem failed_unit_without_result :
    Builder.BuildWithToolchain demoEnv ToolchainNative
        { Context := demoContext [demoRunnable "h" "assemblyscript"] [] none, results := [] }
        { world := [("/npm-offline", "")], trace := [] } =
      (some (Err.Wrap (Err.Wrap (Err.New "exit status 1")
          "failed to Run prerequisite: npm install") "🚫 failed to checkAndRunPreReqs"),
        { Context := demoContext [demoRunnable "h" "assemblyscript"] [] none, results := [] },
        { world := [("/npm-offline", "")],
          trace := [Event.LogStart "building runnable: h (assemblyscript)",
            Event.Stat "/app/h/node_modules",
            Event.LogStart "missing node_modules, fixing...",
            Event.RunInDir "npm install" "/app/h"] }) ∧
    (Builder.checkAndRunPreReqs demoEnv (demoRunnable "h" "assemblyscript")
        { Succeeded := false, OutputLog := "" }
        { world := [("/npm-offline", "")], trace := [] }).2.1 =
      { Succeeded := false, OutputLog := "npm ERR! network\n" } ∧
    Builder.BuildWithToolchain demoEnv ToolchainDocker
        { Context := demoContext [demoRunnable "a" "rust"] [] none, results := [] }
        { world := [("/docker-down", "")], trace := [] } =
      (some (Err.Wrap (Err.Wrap (Err.New "exit status 125") "failed to Run docker command")
          "failed to dockerBuildForDirectory"),
        { Context := demoContext [demoRunnable "a" "rust"] [] none, results := [] },
        { world := [("/docker-down", "")],
          trace := [Event.Run (dockerCommand (demoContext [] [] none)
            "suborbital/builder-rust:v0.4.2" "rust")] }) := by
  refine ⟨by decide, by decide, by decide⟩

end builder
